import Mathlib

set_option maxRecDepth 10000

/-!
Verification of the Sono API backend (appsono/sono-api) against its
natural-language specification.  The definitions below are a shallow
embedding of the Python source under `app/`:

* the collection-track ordering algorithms of `app/crud.py`
  (`add_track_to_collection`, `remove_track_from_collection`,
  `reorder_collection_track`, `bulk_add_tracks_to_collection`,
  `bulk_reorder_collection_tracks` as invoked by the collections router);
* the authentication resolvers of `app/dependencies.py` and
  `app/core/security.py`;
* the token-refresh endpoint of `app/routers/users.py`;
* the collection-visibility endpoint of `app/routers/collections.py`;
* the maintenance-mode middleware of `app/middleware/maintenance.py` and
  the middleware chain actually registered in `app/main.py`;
* the upload-quota functions of `app/crud.py` and `app/routers/audio.py`;
* the forgot-password endpoint of `app/routers/users.py`;
* user soft/hard deletion of `app/crud.py`;
* the data-retention tasks of `app/tasks/data_retention.py` and the
  admin `run-all-cleanup-tasks` endpoint of `app/routers/admin.py`.

Database rows are modelled as Lean structures, tables as lists of rows,
and each Python function as a pure Lean function on that state.
SQL UPDATE statements with a WHERE filter become conditional maps,
DELETE becomes a filter, and `first()` lookups become `List.find?`.
Wall-clock time is passed explicitly (seconds since epoch, as `Int`).
-/

namespace Sono

/-! ## Collection tracks (`app/crud.py`, track ordering)

A single collection's `collection_tracks` rows.  Every track operation in
`crud.py` filters on one `collection_id`, so the rows of one collection are
a faithful projection of the table for these operations.  `nextId` models
the autoincrementing primary key of `collection_tracks`. -/

structure Track where
  id : Nat
  audioFileId : Nat
  ord : Int
  deriving Repr, DecidableEq

structure TracksState where
  nextId : Nat
  tracks : List Track
  deriving Repr, DecidableEq

def trackOrders (ts : List Track) : List Int := ts.map (·.ord)

/-- `db.query(func.max(CollectionTrack.track_order))...scalar()` followed by
Python's `(max_order or 0)`: the SQL MAX of the orders, `0` when the
collection has no tracks (and `0 or 0` is still `0`). -/
def maxOrd : List Int → Int
  | [] => 0
  | x :: xs => xs.foldl max x

/-- A filtered `UPDATE ... SET track_order = f(track_order)`: apply `f` to
the order of every row. -/
def mapOrd (f : Int → Int) (ts : List Track) : List Track :=
  ts.map (fun t => { t with ord := f t.ord })

/-- `add_track_to_collection`: with no requested order, append at
`max(order) + 1`; with a requested order, shift every row at or after that
position up by one and insert there. -/
def addTrack (s : TracksState) (afId : Nat) (req : Option Int) : TracksState :=
  match req with
  | none =>
      let ord := maxOrd (trackOrders s.tracks) + 1
      { nextId := s.nextId + 1, tracks := s.tracks ++ [⟨s.nextId, afId, ord⟩] }
  | some r =>
      let shifted := mapOrd (fun x => if r ≤ x then x + 1 else x) s.tracks
      { nextId := s.nextId + 1, tracks := shifted ++ [⟨s.nextId, afId, r⟩] }

/-- Remove the first row whose primary key matches (the `first()` of a
query on a unique key), returning the remaining rows. -/
def removeFirst (tid : Nat) : List Track → List Track
  | [] => []
  | t :: ts => if t.id == tid then ts else t :: removeFirst tid ts

/-- `remove_track_from_collection`: delete the row, then decrement the
order of every remaining row whose order was greater. -/
def removeTrack (s : TracksState) (tid : Nat) : TracksState :=
  match s.tracks.find? (fun t => t.id == tid) with
  | none => s
  | some t =>
      { s with tracks :=
          mapOrd (fun x => if t.ord < x then x - 1 else x) (removeFirst tid s.tracks) }

/-- Set the order of the first row whose primary key matches; the ORM
mutation of the row object fetched by `first()`. -/
def setOrdFirst (tid : Nat) (v : Int) : List Track → List Track
  | [] => []
  | t :: ts => if t.id == tid then { t with ord := v } :: ts else t :: setOrdFirst tid v ts

/-- `reorder_collection_track`: no-op when the position is unchanged;
otherwise park the moving row at the sentinel order `-1`, close the gap by
shifting the rows strictly between the old and new positions, then set the
moving row to the requested order. -/
def reorderTrack (s : TracksState) (tid : Nat) (newOrd : Int) : TracksState :=
  match s.tracks.find? (fun t => t.id == tid) with
  | none => s
  | some t =>
      let oldOrd := t.ord
      if newOrd = oldOrd then s
      else
        let ts1 := setOrdFirst tid (-1) s.tracks
        let ts2 :=
          if oldOrd < newOrd then
            mapOrd (fun x => if oldOrd < x ∧ x ≤ newOrd then x - 1 else x) ts1
          else
            mapOrd (fun x => if newOrd ≤ x ∧ x < oldOrd then x + 1 else x) ts1
        { s with tracks := setOrdFirst tid newOrd ts2 }

/-- `bulk_add_tracks_to_collection`: compute `max(order) + 1` once, then
add each file through the single-track path with explicit consecutive
orders. -/
def bulkAddAux : List Nat → Int → TracksState → TracksState
  | [], _, s => s
  | afId :: rest, start, s => bulkAddAux rest (start + 1) (addTrack s afId (some start))

def bulkAddTracks (s : TracksState) (ids : List Nat) : TracksState :=
  bulkAddAux ids (maxOrd (trackOrders s.tracks) + 1) s

/-- `bulk_reorder_collection_tracks` endpoint body: apply the single-track
reorder for each entry in order. -/
def bulkReorderTracks (s : TracksState) (items : List (Nat × Int)) : TracksState :=
  items.foldl (fun acc it => reorderTrack acc it.1 it.2) s

inductive TrackOp where
  | append (audioFileId : Nat) (requested : Option Int)
  | remove (trackId : Nat)
  | reorder (trackId : Nat) (newOrder : Int)
  | bulkAdd (audioFileIds : List Nat)
  | bulkReorder (items : List (Nat × Int))
  deriving Repr, DecidableEq

def applyTrackOp (s : TracksState) : TrackOp → TracksState
  | .append af req => addTrack s af req
  | .remove tid => removeTrack s tid
  | .reorder tid v => reorderTrack s tid v
  | .bulkAdd ids => bulkAddTracks s ids
  | .bulkReorder items => bulkReorderTracks s items

def applyTrackOps (s : TracksState) (ops : List TrackOp) : TracksState :=
  ops.foldl applyTrackOp s

/-- The integer interval `[start, start + n)` as a list. -/
def intRange (start : Int) (n : Nat) : List Int :=
  (List.range n).map (fun (i : Nat) => start + (i : Int))

/-- The dense-ordering invariant: the multiset of `track_order` values is
exactly `{1, …, n}` for `n` the number of tracks. -/
def denseOrders (s : TracksState) : Prop :=
  (trackOrders s.tracks).Perm (intRange 1 s.tracks.length)

instance : DecidablePred denseOrders := fun _ => List.decidablePerm _ _

/-- In-range side condition for one operation: an explicitly requested
append position must lie in `1..n+1` and a reorder target in `1..n`
(`n` = current track count).  The spec's claim quantifies over all
operations; the counterexample below shows the restriction is needed. -/
def validTrackOp (s : TracksState) : TrackOp → Prop
  | .append _ none => True
  | .append _ (some r) => 1 ≤ r ∧ r ≤ (s.tracks.length : Int) + 1
  | .remove _ => True
  | .reorder _ v => 1 ≤ v ∧ v ≤ (s.tracks.length : Int)
  | .bulkAdd _ => True
  | .bulkReorder items => ∀ p ∈ items, 1 ≤ p.2 ∧ p.2 ≤ (s.tracks.length : Int)

def validTrackOps (s : TracksState) : List TrackOp → Prop
  | [] => True
  | op :: rest => validTrackOp s op ∧ validTrackOps (applyTrackOp s op) rest

/-! ## Relational state (`app/models.py`), one structure per table row -/

structure UserRec where
  id : Nat
  username : String
  email : String
  hashedPassword : String
  isActive : Bool
  isSuperuser : Bool
  maxAudioUploads : Int
  displayName : Option String
  bio : Option String
  profilePictureUrl : Option String
  deriving Repr, DecidableEq

structure AudioFileRec where
  id : Nat
  ownerId : Nat
  storedFilename : String
  isPublic : Bool
  deriving Repr, DecidableEq

structure CollectionRec where
  id : Nat
  ownerId : Nat
  isPublic : Bool
  isCollaborative : Bool
  coverArtUrl : Option String
  deriving Repr, DecidableEq

structure CollaboratorRec where
  collectionId : Nat
  userId : Nat
  permissionLevel : String
  deriving Repr, DecidableEq

structure RevokedTokenRec where
  jti : String
  token : String
  tokenType : String
  userId : Nat
  expiresAt : Int
  reason : Option String
  deriving Repr, DecidableEq

structure AuditLogRec where
  userId : Option Nat
  action : String
  details : Option String
  success : Bool
  timestamp : Int
  deriving Repr, DecidableEq

structure ResetTokenRec where
  userId : Nat
  token : String
  expiresAt : Int
  isValid : Bool
  ipAddress : Option String
  deriving Repr, DecidableEq

structure RetentionPolicyRec where
  dataType : String
  retentionDays : Int
  description : Option String
  deriving Repr, DecidableEq

structure DeletionRequestRec where
  id : Nat
  userId : Nat
  scheduledDeletionAt : Int
  deletionType : String
  status : String
  reason : Option String
  deriving Repr, DecidableEq

/-- One object in the S3-compatible store. -/
structure StorageObject where
  bucket : String
  name : String
  deriving Repr, DecidableEq

/-- The primary relational store plus the object store. -/
structure DB where
  users : List UserRec
  audioFiles : List AudioFileRec
  collections : List CollectionRec
  collaborators : List CollaboratorRec
  revokedTokens : List RevokedTokenRec
  auditLogs : List AuditLogRec
  resetTokens : List ResetTokenRec
  retentionPolicies : List RetentionPolicyRec
  deletionRequests : List DeletionRequestRec
  storage : List StorageObject
  deriving Repr, DecidableEq

/-! ## CRUD lookups (`app/crud.py`) -/

def getUser (db : DB) (uid : Nat) : Option UserRec :=
  db.users.find? (fun u => u.id == uid)

def getUserByUsername (db : DB) (name : String) : Option UserRec :=
  db.users.find? (fun u => u.username == name)

def getUserByEmail (db : DB) (e : String) : Option UserRec :=
  db.users.find? (fun u => u.email == e)

def isTokenRevoked (db : DB) (jti : String) : Bool :=
  db.revokedTokens.any (fun r => r.jti == jti)

/-- `add_revoked_token`: idempotent insert by `jti`. -/
def addRevokedToken (db : DB) (jti token tokenType : String) (userId : Nat)
    (expiresAt : Int) (reason : Option String) : DB :=
  if isTokenRevoked db jti then db
  else { db with revokedTokens :=
    db.revokedTokens ++ [⟨jti, token, tokenType, userId, expiresAt, reason⟩] }

/-- `create_audit_log` (the relevant fields). -/
def createAuditLog (db : DB) (action : String) (userId : Option Nat)
    (details : Option String) (success : Bool) (now : Int) : DB :=
  { db with auditLogs := db.auditLogs ++ [⟨userId, action, details, success, now⟩] }

def getUserAudioFilesCount (db : DB) (uid : Nat) : Nat :=
  (db.audioFiles.filter (fun f => f.ownerId == uid)).length

def getCollection (db : DB) (cid : Nat) : Option CollectionRec :=
  db.collections.find? (fun c => c.id == cid)

def findCollaborator (db : DB) (cid uid : Nat) : Option CollaboratorRec :=
  db.collaborators.find? (fun cc => cc.collectionId == cid && cc.userId == uid)

/-- `user_can_edit_collection` — (allowed, reason). -/
def userCanEditCollection (db : DB) (cid uid : Nat) : Bool × String :=
  match getCollection db cid with
  | none => (false, "Collection not found")
  | some c =>
      if c.ownerId == uid then (true, "owner")
      else if !c.isCollaborative then (false, "Not collaborative")
      else
        match findCollaborator db cid uid with
        | some cc =>
            if cc.permissionLevel == "edit" then (true, "collaborator")
            else (false, "No permission")
        | none => (false, "No permission")

/-- `user_can_view_collection` — (allowed, reason). -/
def userCanViewCollection (db : DB) (cid uid : Nat) : Bool × String :=
  match getCollection db cid with
  | none => (false, "Collection not found")
  | some c =>
      if c.ownerId == uid then (true, "owner")
      else if c.isPublic then (true, "public")
      else
        match findCollaborator db cid uid with
        | some _ => (true, "collaborator")
        | none => (false, "No access")

/-! ## Tokens and authentication
(`app/core/security.py`, `app/dependencies.py`, `app/routers/users.py`)

A decoded JWT payload.  `jwt.decode` verifies the signature and the
expiry; a failed decode (bad signature, expired, malformed) raises
`JWTError`, which call sites receive as `none` here. -/

structure TokenPayload where
  sub : Option String
  tokenType : Option String
  jti : Option String
  exp : Option Int
  deriving Repr, DecidableEq

/-- The `Authorization` header of a request: absent, present but failing
`jwt.decode` (JWTError), or decoding to a payload. -/
inductive BearerHeader where
  | absent
  | invalid
  | valid (p : TokenPayload)
  deriving Repr, DecidableEq

/-- `app/core/security.py::get_current_user`: checks the `token_type`
claim, the revocation blacklist, and the subject, rejecting with 401. -/
def securityGetCurrentUser (db : DB) (decoded : Option TokenPayload) :
    Except Nat UserRec :=
  match decoded with
  | none => .error 401
  | some payload =>
      if payload.tokenType ≠ some "access" then .error 401
      else if (match payload.jti with
               | some j => isTokenRevoked db j
               | none => false) then .error 401
      else
        match payload.sub with
        | none => .error 401
        | some username =>
            match getUserByUsername db username with
            | none => .error 401
            | some user => .ok user

/-- `app/core/security.py::get_current_active_user`: 403 when inactive. -/
def securityGetCurrentActiveUser (db : DB) (decoded : Option TokenPayload) :
    Except Nat UserRec :=
  match securityGetCurrentUser db decoded with
  | .error e => .error e
  | .ok u => if !u.isActive then .error 403 else .ok u

/-- `app/dependencies.py::get_current_user`: decodes and resolves the
subject only — no token-type check and no revocation check. -/
def dependenciesGetCurrentUser (db : DB) (decoded : Option TokenPayload) :
    Except Nat UserRec :=
  match decoded with
  | none => .error 401
  | some payload =>
      match payload.sub with
      | none => .error 401
      | some username =>
          match getUserByUsername db username with
          | none => .error 401
          | some user => .ok user

/-- `app/dependencies.py::get_current_active_user`: 400 when inactive. -/
def dependenciesGetCurrentActiveUser (db : DB) (decoded : Option TokenPayload) :
    Except Nat UserRec :=
  match dependenciesGetCurrentUser db decoded with
  | .error e => .error e
  | .ok u => if !u.isActive then .error 400 else .ok u

/-- `app/dependencies.py::get_optional_current_user`.  Its `credentials`
parameter is injected by `security = HTTPBearer()` (dependencies.py:12)
whose default `auto_error=True` makes FastAPI answer a request carrying no
`Authorization` header with 403 "Not authenticated" before the function
body ever runs — the body's `if not credentials: return None` is
unreachable.  When credentials are present, a failed decode or a missing
subject is treated as anonymous (`none`), and a resolved user is returned
only when active. -/
def getOptionalCurrentUser (db : DB) (auth : BearerHeader) :
    Except Nat (Option UserRec) :=
  match auth with
  | .absent => .error 403
  | .invalid => .ok none
  | .valid payload =>
      match payload.sub with
      | none => .ok none
      | some username =>
          match getUserByUsername db username with
          | some u => if u.isActive then .ok (some u) else .ok none
          | none => .ok none

/-- `app/routers/users.py::refresh_token`.  The presented refresh token is
given as its decoded payload (`none` = `JWTError`) plus its raw string; on
success the old `jti` is revoked (reason `token_refresh`) and a fresh pair
is issued for the resolved username. -/
def refreshEndpoint (db : DB) (decoded : Option TokenPayload) (rawToken : String)
    (now : Int) : Except Nat (DB × String) :=
  match decoded with
  | none => .error 401
  | some payload =>
      if (match payload.jti with
          | some j => isTokenRevoked db j
          | none => false) then .error 401
      else
        match payload.sub with
        | none => .error 401
        | some username =>
            if payload.tokenType ≠ some "refresh" then .error 401
            else
              match getUserByUsername db username with
              | none => .error 401
              | some user =>
                  let db1 :=
                    match payload.jti, payload.exp with
                    | some j, some e =>
                        addRevokedToken db j rawToken "refresh" user.id e
                          (some "token_refresh")
                    | _, _ => db
                  let db2 := createAuditLog db1 "token.refresh" (some user.id)
                    (some ("Token refreshed for user: " ++ user.username)) true now
                  .ok (db2, user.username)

/-! ## Collection visibility (`app/routers/collections.py::get_collection`) -/

/-- Successful response summary: the collection id and the computed
`can_edit` flag. -/
structure CollectionView where
  collectionId : Nat
  canEdit : Bool
  deriving Repr, DecidableEq

/-- `GET /collections/{id}`: the `get_optional_current_user` dependency
runs first (aborting credential-less requests via `HTTPBearer`), then the
handler body. -/
def getCollectionEndpoint (db : DB) (cid : Nat) (auth : BearerHeader) :
    Except Nat CollectionView :=
  match getOptionalCurrentUser db auth with
  | .error e => .error e
  | .ok currentUser =>
      match getCollection db cid with
      | none => .error 404
      | some c =>
          if c.isPublic then
            let canEdit :=
              match currentUser with
              | some u => (userCanEditCollection db cid u.id).1
              | none => false
            .ok ⟨c.id, canEdit⟩
          else
            match currentUser with
            | none => .error 401
            | some u =>
                let canView0 := (userCanViewCollection db cid u.id).1
                let canView := if u.isSuperuser then true else canView0
                if !canView then .error 403
                else .ok ⟨c.id, (userCanEditCollection db cid u.id).1⟩

/-! ## Upload quota (`app/crud.py`, `app/routers/audio.py`) -/

/-- `can_user_upload_audio` — (can_upload, current_count, max_allowed);
superusers get the sentinel `-1` for "unlimited". -/
def canUserUploadAudio (db : DB) (uid : Nat) : Bool × Int × Int :=
  match getUser db uid with
  | none => (false, 0, 0)
  | some u =>
      let c : Int := getUserAudioFilesCount db uid
      if u.isSuperuser then (true, c, -1)
      else (decide (c < u.maxAudioUploads), c, u.maxAudioUploads)

structure UploadStats where
  usedUploads : Int
  maxUploads : Int
  remainingUploads : Int
  deriving Repr, DecidableEq

/-- `get_user_upload_stats` (`none` = the "User not found" error dict). -/
def getUserUploadStats (db : DB) (uid : Nat) : Option UploadStats :=
  match getUser db uid with
  | none => none
  | some u =>
      let c : Int := getUserAudioFilesCount db uid
      some ⟨c,
        if u.isSuperuser then -1 else u.maxAudioUploads,
        if u.isSuperuser then -1 else max 0 (u.maxAudioUploads - c)⟩

/-- The quota gate at the top of `upload_audio_file`: `some 403` when the
eligibility check rejects, `none` when the upload may proceed. -/
def uploadAudioQuotaGate (db : DB) (uid : Nat) : Option Nat :=
  if !(canUserUploadAudio db uid).1 then some 403 else none

/-! ## Password reset (`app/routers/users.py::forgot_password`,
`app/core/email.py::send_password_reset_email`) -/

def genericResetMessage : String :=
  "If an account with that email exists, we've sent password reset instructions."

def createPasswordResetToken (db : DB) (uid : Nat) (tok : String)
    (expiresAt : Int) (ip : Option String) : DB :=
  { db with resetTokens := db.resetTokens ++ [⟨uid, tok, expiresAt, true, ip⟩] }

structure ForgotPasswordResult where
  status : Nat
  message : Option String
  db : DB
  emailedTo : Option String
  deriving Repr, DecidableEq

/-- `forgot_password`: on a match, store a token expiring one hour
(3600 s) after issuance, attempt the reset email (`emailSendOk` is the
boolean result of `send_password_reset_email`), audit-log the outcome, and
fail with 500 when delivery failed; with or without a match the success
response carries the same generic message. -/
def forgotPassword (db : DB) (email : String) (now : Int) (freshToken : String)
    (ip : Option String) (emailSendOk : Bool) : ForgotPasswordResult :=
  match getUserByEmail db email with
  | none => ⟨200, some genericResetMessage, db, none⟩
  | some u =>
      let db1 := createPasswordResetToken db u.id freshToken (now + 3600) ip
      let db2 := createAuditLog db1 "password_reset.requested" (some u.id)
        (some ("Password reset requested for " ++ u.email)) emailSendOk now
      if !emailSendOk then
        ⟨500, some "Failed to send password reset email. Please try again later.",
          db2, some u.email⟩
      else ⟨200, some genericResetMessage, db2, some u.email⟩

/-! ## Maintenance mode (`app/core/maintenance_state.py`,
`app/middleware/maintenance.py`, `app/main.py`) -/

structure MaintState where
  enabled : Bool
  message : String
  deriving Repr, DecidableEq

structure HttpRequest where
  path : String
  auth : BearerHeader
  deriving Repr, DecidableEq

/-- What a middleware does with a request: pass it on, or answer it. -/
inductive MwDecision where
  | passThrough
  | block503 (detail : String) (retryAfter : Nat)
  deriving Repr, DecidableEq

/-- `maintenance_mode_middleware`: `/health` and the maintenance-admin
prefix always pass; with maintenance enabled, a bearer token resolving to
a superuser passes and everything else is answered with 503,
`Retry-After: 3600` and the configured message. -/
def maintenanceModeMiddleware (db : DB) (ms : MaintState) (req : HttpRequest) :
    MwDecision :=
  if req.path == "/health" then .passThrough
  else if req.path.startsWith "/api/v1/admin/maintenance" then .passThrough
  else if ms.enabled then
    match req.auth with
    | .valid p =>
        match p.sub with
        | some username =>
            match getUserByUsername db username with
            | some u =>
                if u.isSuperuser then .passThrough
                else .block503 ms.message 3600
            | none => .block503 ms.message 3600
        | none => .block503 ms.message 3600
    | _ => .block503 ms.message 3600
  else .passThrough

/-- The middlewares `app/main.py` registers, and the maintenance gate
(defined in `app/middleware/maintenance.py` but never registered). -/
inductive AppMiddlewareKind where
  | slowapi
  | securityHeaders
  | cors
  | trustedHost
  | maintenanceGate
  deriving Repr, DecidableEq

/-- The chain actually installed in `app/main.py`, in registration order:
`SlowAPIMiddleware`, the security-header injector, `CORSMiddleware`,
`TrustedHostMiddleware`. -/
def mainAppMiddlewares : List AppMiddlewareKind :=
  [.slowapi, .securityHeaders, .cors, .trustedHost]

inductive AppResponse where
  | routed (path : String)
  | rateLimited
  | maintenance503 (detail : String) (retryAfter : Nat)
  deriving Repr, DecidableEq

/-- Whether one middleware short-circuits the request.  The
security-header and CORS middlewares only adjust response headers;
`rateLimited` abstracts slowapi's (time-dependent) decision; requests are
taken to come from an allowed host. -/
def runMiddleware (db : DB) (ms : MaintState) (rateLimited : Bool)
    (req : HttpRequest) : AppMiddlewareKind → Option AppResponse
  | .slowapi => if rateLimited then some .rateLimited else none
  | .securityHeaders => none
  | .cors => none
  | .trustedHost => none
  | .maintenanceGate =>
      match maintenanceModeMiddleware db ms req with
      | .passThrough => none
      | .block503 d r => some (.maintenance503 d r)

def runPipeline (db : DB) (ms : MaintState) (rateLimited : Bool)
    (req : HttpRequest) : List AppMiddlewareKind → AppResponse
  | [] => .routed req.path
  | mw :: rest =>
      match runMiddleware db ms rateLimited req mw with
      | some resp => resp
      | none => runPipeline db ms rateLimited req rest

/-- A request served by the application as bootstrapped in `app/main.py`. -/
def appServe (db : DB) (ms : MaintState) (rateLimited : Bool)
    (req : HttpRequest) : AppResponse :=
  runPipeline db ms rateLimited req mainAppMiddlewares

/-! ## User deletion (`app/crud.py::soft_delete_user`, `hard_delete_user`) -/

/-- Python's `url.split('/')[-1]`. -/
def lastPathComponent (url : String) : String :=
  (url.splitOn "/").getLastD url

def removeStorageObject (db : DB) (bucket name : String) : DB :=
  { db with storage := db.storage.filter (fun o => !(o.bucket == bucket && o.name == name)) }

/-- The anonymised row written by `soft_delete_user`. -/
def anonUser (uid : Nat) (u : UserRec) : UserRec :=
  { u with
    isActive := false
    username := "deleted_user_" ++ toString uid
    email := "deleted_" ++ toString uid ++ "@deleted.account"
    displayName := none
    bio := some "deleted"
    profilePictureUrl := none }

/-- `soft_delete_user`.  `storageRemoveOk` is whether the
`minio_client.remove_object` call succeeds; its failure is caught and
only logged. -/
def softDeleteUser (db : DB) (uid : Nat) (storageRemoveOk : Bool) :
    DB × Option UserRec :=
  match getUser db uid with
  | none => (db, none)
  | some u =>
      let db0 :=
        match u.profilePictureUrl with
        | some url =>
            if storageRemoveOk then
              removeStorageObject db "profile-pictures" (lastPathComponent url)
            else db
        | none => db
      let anon : UserRec := anonUser uid u
      let newUsers := db0.users.map (fun v => if v.id == uid then anon else v)
      let newFiles := db0.audioFiles.map
        (fun f => if f.ownerId == uid then { f with isPublic := false } else f)
      let newCollections := db0.collections.map
        (fun c => if c.ownerId == uid then { c with isPublic := false } else c)
      let db1 := { db0 with users := newUsers }
      let db2 := { db1 with audioFiles := newFiles }
      let db3 := { db2 with collections := newCollections }
      (db3, some anon)

/-- `hard_delete_user`: best-effort storage cleanup (modelled as
succeeding), audit-log anonymisation, then deletion of the user row with
the database-level cascade removing owned rows. -/
def hardDeleteUser (db : DB) (uid : Nat) : DB :=
  match getUser db uid with
  | none => db
  | some u =>
      let db0 :=
        match u.profilePictureUrl with
        | some url => removeStorageObject db "profile-pictures" (lastPathComponent url)
        | none => db
      let owned := db0.audioFiles.filter (fun f => f.ownerId == uid)
      let db1 := owned.foldl
        (fun acc f => removeStorageObject acc "audio-files" f.storedFilename) db0
      let ownedC := db1.collections.filter (fun c => c.ownerId == uid)
      let db2 := ownedC.foldl
        (fun acc c =>
          match c.coverArtUrl with
          | some url => removeStorageObject acc "cover-art" (lastPathComponent url)
          | none => acc) db1
      let newAudit := db2.auditLogs.map
        (fun a =>
          if a.userId == some uid then
            { a with userId := none, details := some "User deleted - GDPR" }
          else a)
      let db3 := { db2 with auditLogs := newAudit }
      { db3 with
        users := db3.users.filter (fun v => v.id != uid)
        audioFiles := db3.audioFiles.filter (fun f => f.ownerId != uid)
        collections := db3.collections.filter (fun c => c.ownerId != uid)
        collaborators := db3.collaborators.filter
          (fun cc => !(cc.userId == uid
            || db3.collections.any (fun c => c.id == cc.collectionId && c.ownerId == uid)))
        revokedTokens := db3.revokedTokens.filter (fun r => r.userId != uid) }

/-! ## Data-retention tasks (`app/tasks/data_retention.py`) and the admin
trigger (`app/routers/admin.py::run_all_cleanup_tasks_endpoint`) -/

/-- `crud.cleanup_expired_tokens`: delete revoked-token rows past expiry. -/
def cleanupExpiredTokens (db : DB) (now : Int) : DB × Nat :=
  ({ db with revokedTokens := db.revokedTokens.filter (fun r => !decide (r.expiresAt < now)) },
   (db.revokedTokens.filter (fun r => decide (r.expiresAt < now))).length)

/-- `crud.cleanup_old_audit_logs`. -/
def cleanupOldAuditLogs (db : DB) (now : Int) (retentionDays : Int) : DB × Nat :=
  let cutoff := now - retentionDays * 86400
  ({ db with auditLogs := db.auditLogs.filter (fun a => !decide (a.timestamp < cutoff)) },
   (db.auditLogs.filter (fun a => decide (a.timestamp < cutoff))).length)

def completeDeletionRequest (db : DB) (rid : Nat) : DB :=
  let updated := db.deletionRequests.map
    (fun r => if r.id == rid then { r with status := "completed" } else r)
  { db with deletionRequests := updated }

/-- `crud.get_pending_deletions`: pending requests whose scheduled time
has passed. -/
def getPendingDeletions (db : DB) (now : Int) : List DeletionRequestRec :=
  db.deletionRequests.filter
    (fun r => r.status == "pending" && decide (r.scheduledDeletionAt ≤ now))

/-- One iteration of the loop in `process_pending_deletions`. -/
def processOneDeletion (db : DB) (now : Int) (req : DeletionRequestRec) : DB × Bool :=
  match getUser db req.userId with
  | none => (completeDeletionRequest db req.id, false)
  | some u =>
      let db1 := createAuditLog db ("user." ++ req.deletionType ++ "_delete_automated")
        (some u.id) (some ("Automated " ++ req.deletionType
          ++ " deletion after grace period")) true now
      let db2 :=
        if req.deletionType == "soft" then (softDeleteUser db1 req.userId true).1
        else if req.deletionType == "hard" then hardDeleteUser db1 req.userId
        else db1
      (completeDeletionRequest db2 req.id, true)

def processPendingStep (now : Int) (acc : DB × Nat) (r : DeletionRequestRec) : DB × Nat :=
  let step := processOneDeletion acc.1 now r
  (step.1, if step.2 then acc.2 + 1 else acc.2)

/-- `process_pending_deletions` — returns the new state and the processed
count (requests whose user was already gone are completed but not
counted). -/
def processPendingDeletions (db : DB) (now : Int) : DB × Nat :=
  (getPendingDeletions db now).foldl (processPendingStep now) (db, 0)

/-- `cleanup_unused_profile_pictures`: delete every object of the
profile-picture bucket whose file name no user's `profile_picture_url`
references (per-object failures are counted, modelled as none). -/
def cleanupUnusedProfilePictures (db : DB) : DB × Nat :=
  let referenced := (db.users.filterMap (fun u => u.profilePictureUrl)).map lastPathComponent
  let orphaned := db.storage.filter
    (fun o => o.bucket == "profile-pictures" && !referenced.contains o.name)
  (orphaned.foldl (fun acc o => removeStorageObject acc "profile-pictures" o.name) db,
   orphaned.length)

/-- `crud.create_retention_policy`: upsert by `data_type`. -/
def createRetentionPolicy (db : DB) (dataType : String) (days : Int)
    (desc : String) : DB :=
  if db.retentionPolicies.any (fun p => p.dataType == dataType) then
    let updated := db.retentionPolicies.map
      (fun p =>
        if p.dataType == dataType then
          { p with retentionDays := days, description := some desc }
        else p)
    { db with retentionPolicies := updated }
  else
    { db with retentionPolicies := db.retentionPolicies ++ [⟨dataType, days, some desc⟩] }

def defaultRetentionPolicies : List (String × Int × String) :=
  [("audit_logs", 3650, "Audit logs must be kept for 10 years"),
   ("user_data", 1095,
     "User data retained for 3 years after last activity, then soft deleted"),
   ("audio_files", 730, "Audio files for inactive accounts retained for 2 years"),
   ("revoked_tokens", 7, "Revoked tokens cleaned up 7 days after expiration"),
   ("deletion_requests", 365,
     "Completed deletion requests kept for 1 year for audit purposes")]

def initializeDefaultRetentionPolicies (db : DB) : DB :=
  defaultRetentionPolicies.foldl (fun acc p => createRetentionPolicy acc p.1 p.2.1 p.2.2) db

/-- `crud.cleanup_expired_reset_tokens`. -/
def cleanupExpiredResetTokens (db : DB) (now : Int) : DB × Nat :=
  ({ db with resetTokens := db.resetTokens.filter (fun t => !decide (t.expiresAt < now)) },
   (db.resetTokens.filter (fun t => decide (t.expiresAt < now))).length)

/-- `app/tasks/data_retention.py::run_all_cleanup_tasks` — the weekly
cleanup: expired revoked tokens, pending deletions, old audit logs
(3650 days), unused profile pictures, default retention policies, expired
password-reset tokens, in that order. -/
def runAllCleanupTasks (db : DB) (now : Int) : DB :=
  let d1 := (cleanupExpiredTokens db now).1
  let d2 := (processPendingDeletions d1 now).1
  let d3 := (cleanupOldAuditLogs d2 now 3650).1
  let d4 := (cleanupUnusedProfilePictures d3).1
  let d5 := initializeDefaultRetentionPolicies d4
  (cleanupExpiredResetTokens d5 now).1

structure CleanupCounts where
  expiredTokensCleaned : Nat
  pendingDeletionsProcessed : Nat
  oldAuditLogsCleaned : Nat
  profilePicturesDeleted : Nat
  retentionPoliciesInitialized : Bool
  deriving Repr, DecidableEq

/-- `app/routers/admin.py::run_all_cleanup_tasks_endpoint`: audit-log the
trigger, then run the first five cleanup steps (the expired
password-reset-token purge of the weekly job is not invoked here). -/
def runAllCleanupTasksEndpoint (db : DB) (adminId : Nat) (adminName : String)
    (now : Int) : DB × CleanupCounts :=
  let db0 := createAuditLog db "admin.run_all_cleanup_tasks" (some adminId)
    (some ("Admin " ++ adminName ++ " triggered all cleanup tasks")) true now
  let s1 := cleanupExpiredTokens db0 now
  let s2 := processPendingDeletions s1.1 now
  let s3 := cleanupOldAuditLogs s2.1 now 3650
  let s4 := cleanupUnusedProfilePictures s3.1
  let d5 := initializeDefaultRetentionPolicies s4.1
  (d5, ⟨s1.2, s2.2, s3.2, s4.2, true⟩)

/-- Agreement of two database states on every component except the audit
log (the manual trigger writes its own audit entry before running the
cleanup steps). -/
def NonAuditEq (a b : DB) : Prop :=
  a.users = b.users ∧ a.audioFiles = b.audioFiles ∧ a.collections = b.collections ∧
  a.collaborators = b.collaborators ∧ a.revokedTokens = b.revokedTokens ∧
  a.resetTokens = b.resetTokens ∧ a.retentionPolicies = b.retentionPolicies ∧
  a.deletionRequests = b.deletionRequests ∧ a.storage = b.storage

instance (a b : DB) : Decidable (NonAuditEq a b) := by
  unfold NonAuditEq
  infer_instance

/-- Replace the audit log of a state, leaving every other component
untouched (used to track how the cleanup steps treat the audit log). -/
def setAudit (db : DB) (L : List AuditLogRec) : DB :=
  { db with auditLogs := L }

/-! ## Small concrete fixtures used to evaluate the theorems -/

def emptyDB : DB := ⟨[], [], [], [], [], [], [], [], [], []⟩

def aliceUser : UserRec :=
  ⟨1, "alice", "alice@example.com", "hash", true, false, 20, none, none, none⟩

def bobInactive : UserRec :=
  ⟨2, "bob", "bob@example.com", "hash", false, false, 20, none, none, none⟩

def rootSuperuser : UserRec :=
  ⟨3, "root", "root@example.com", "hash", true, true, 20, none, none, none⟩

/-- A store holding `alice` and a blacklisted access-token `jti`. -/
def dbWithRevoked : DB :=
  { emptyDB with users := [aliceUser], revokedTokens := [⟨"j1", "tok", "access", 1, 1000, some "admin_revoke"⟩] }

/-- A private, non-collaborative collection (id 10) owned by `alice`. -/
def dbPrivateCollection : DB :=
  { emptyDB with users := [aliceUser, rootSuperuser], collections := [⟨10, 1, false, false, none⟩] }

/-- A public collection (id 11) owned by `alice`. -/
def dbPublicCollection : DB :=
  { emptyDB with users := [aliceUser, rootSuperuser], collections := [⟨11, 1, true, false, none⟩] }

/-- `carol`: a non-superuser at the default quota of 20. -/
def carolUser : UserRec :=
  ⟨4, "carol", "carol@example.com", "hash", true, false, 20, none, none, none⟩

def carolFiles : List AudioFileRec :=
  (List.range 20).map (fun i => ⟨i, 4, "f" ++ toString i, false⟩)

/-- `carol` with exactly 20 uploaded files, plus a superuser. -/
def dbCarolFull : DB :=
  { emptyDB with users := [carolUser, rootSuperuser], audioFiles := carolFiles }

/-- A store holding one password-reset token that expired five seconds
before the reference instant `now = 0`. -/
def dbExpiredReset : DB :=
  { emptyDB with resetTokens := [⟨1, "t", -5, true, none⟩] }

/-! ### Arithmetic-range toolkit for the dense-ordering proofs -/

theorem intRange_zero (s : Int) : intRange s 0 = [] := rfl

theorem intRange_succ (s : Int) (n : Nat) :
    intRange s (n + 1) = s :: intRange (s + 1) n := by
  unfold intRange
  rw [List.range_succ_eq_map, List.map_cons, List.map_map]
  congr 1
  · simp
  · congr 1
    funext i
    simp only [Function.comp_apply]
    omega

theorem intRange_one (s : Int) : intRange s 1 = [s] := by
  simp [intRange, List.range_succ]

theorem intRange_length (s : Int) (n : Nat) : (intRange s n).length = n := by
  simp [intRange]

theorem intRange_append (s : Int) (a b : Nat) :
    intRange s (a + b) = intRange s a ++ intRange (s + a) b := by
  induction a generalizing s with
  | zero => simp [intRange_zero]
  | succ k ih =>
      have h1 : k + 1 + b = (k + b) + 1 := by omega
      have h2 : s + 1 + (k : Int) = s + ((k + 1 : Nat) : Int) := by push_cast; ring
      rw [h1, intRange_succ, intRange_succ, ih (s + 1), List.cons_append, h2]

theorem intRange_peel (s : Int) (k m : Nat) :
    intRange s (k + 1 + m) = intRange s k ++ (s + k) :: intRange (s + k + 1) m := by
  have h3 : s + ((k + 1 : Nat) : Int) = s + k + 1 := by push_cast; ring
  rw [intRange_append s (k + 1) m, intRange_append s k 1, intRange_one,
    List.append_assoc, List.singleton_append, h3]

theorem mem_intRange {x s : Int} {n : Nat} :
    x ∈ intRange s n ↔ s ≤ x ∧ x < s + n := by
  simp only [intRange, List.mem_map, List.mem_range]
  constructor
  · rintro ⟨i, hi, rfl⟩
    omega
  · intro h
    exact ⟨(x - s).toNat, by omega, by omega⟩

theorem intRange_map_agree (f : Int → Int) (d s : Int) (n : Nat)
    (h : ∀ x, s ≤ x → x < s + n → f x = x + d) :
    (intRange s n).map f = intRange (s + d) n := by
  induction n generalizing s with
  | zero => simp [intRange_zero]
  | succ k ih =>
      rw [intRange_succ, intRange_succ, List.map_cons]
      congr 1
      · apply h s le_rfl
        push_cast
        omega
      · have ht : (intRange (s + 1) k).map f = intRange (s + 1 + d) k := by
          apply ih
          intro x hx1 hx2
          apply h x (by omega)
          push_cast
          push_cast at hx2
          omega
        rw [ht]
        congr 1
        ring

/-! ### Facts about `maxOrd` -/

theorem le_foldl_max (xs : List Int) (a : Int) : a ≤ xs.foldl max a := by
  induction xs generalizing a with
  | nil => exact le_refl a
  | cons y ys ih => exact le_trans (le_max_left a y) (ih (max a y))

theorem foldl_max_le (xs : List Int) (a b : Int) (ha : a ≤ b) (h : ∀ x ∈ xs, x ≤ b) :
    xs.foldl max a ≤ b := by
  induction xs generalizing a with
  | nil => exact ha
  | cons y ys ih =>
      exact ih (max a y) (max_le ha (h y (by simp))) (fun x hx => h x (by simp [hx]))

theorem mem_le_foldl_max (xs : List Int) (a x : Int) (hx : x ∈ xs) : x ≤ xs.foldl max a := by
  induction xs generalizing a with
  | nil => cases hx
  | cons y ys ih =>
      rcases List.mem_cons.mp hx with rfl | hmem
      · exact le_trans (le_max_right a x) (le_foldl_max ys (max a x))
      · exact ih (max a y) hmem

/-! ### Structural lemmas about the track-list operations -/

theorem trackOrders_append (l₁ l₂ : List Track) :
    trackOrders (l₁ ++ l₂) = trackOrders l₁ ++ trackOrders l₂ := by
  simp [trackOrders]

theorem trackOrders_mapOrd (f : Int → Int) (l : List Track) :
    trackOrders (mapOrd f l) = (trackOrders l).map f := by
  simp [trackOrders, mapOrd, List.map_map, Function.comp]

theorem length_mapOrd (f : Int → Int) (l : List Track) :
    (mapOrd f l).length = l.length := by
  simp [mapOrd]

theorem length_setOrdFirst (tid : Nat) (v : Int) (l : List Track) :
    (setOrdFirst tid v l).length = l.length := by
  induction l with
  | nil => rfl
  | cons t ts ih =>
      simp only [setOrdFirst]
      split <;> simp [ih]

theorem length_trackOrders (l : List Track) : (trackOrders l).length = l.length := by
  simp [trackOrders]

/-- Removing the first matching row and putting its order in front is a
permutation of the original orders. -/
theorem find?_orders_perm (tid : Nat) (l : List Track) (t : Track)
    (h : l.find? (fun u => u.id == tid) = some t) :
    (trackOrders l).Perm (t.ord :: trackOrders (removeFirst tid l)) := by
  induction l with
  | nil => simp at h
  | cons u us ih =>
      cases hu : (u.id == tid) with
      | true =>
          simp only [List.find?, hu, cond_true] at h
          obtain rfl : u = t := by injection h
          simp [removeFirst, hu, trackOrders]
      | false =>
          simp only [List.find?, hu, cond_false] at h
          have ihh := ih h
          simp only [removeFirst, hu, Bool.false_eq_true, ite_false, trackOrders,
            List.map_cons]
          exact (ihh.cons u.ord).trans (List.Perm.swap t.ord u.ord _)

/-- Net effect of the reorder dance (sentinel, shift, final assignment) on
the multiset of orders: the moving row ends at `b`, every other row's order
passes through `f`. -/
theorem reorder_shape (tid : Nat) (a b : Int) (f : Int → Int) (l : List Track) (t : Track)
    (h : l.find? (fun u => u.id == tid) = some t) :
    (trackOrders (setOrdFirst tid b (mapOrd f (setOrdFirst tid a l)))).Perm
      (b :: (trackOrders (removeFirst tid l)).map f) := by
  induction l with
  | nil => simp at h
  | cons u us ih =>
      cases hu : (u.id == tid) with
      | true =>
          simp only [setOrdFirst, hu, ite_true, mapOrd, List.map_cons, removeFirst,
            trackOrders, List.map_map]
          have he : (fun x : Track => x.ord) ∘
              (fun t : Track => { id := t.id, audioFileId := t.audioFileId, ord := f t.ord }) =
              f ∘ (fun x : Track => x.ord) := by
            funext v
            rfl
          rw [he]
      | false =>
          simp only [List.find?, hu, cond_false] at h
          have ihh := ih h
          simp only [setOrdFirst, hu, Bool.false_eq_true, ite_false, mapOrd, List.map_cons]
          simp only [trackOrders, List.map_cons] at ihh ⊢
          simp only [removeFirst, hu, Bool.false_eq_true, ite_false, List.map_cons]
          exact (ihh.cons (f u.ord)).trans (List.Perm.swap b (f u.ord) _)

/-- Inserting an element in the middle, phrased for head-insertion. -/
theorem perm_cons_middle (x : Int) (A C : List Int) :
    (x :: (A ++ C)).Perm (A ++ x :: C) :=
  (List.perm_middle).symm

theorem perm_cons_middle₂ (x : Int) (A B C : List Int) :
    (x :: (A ++ (B ++ C))).Perm (A ++ (B ++ x :: C)) := by
  have h : ((A ++ B) ++ x :: C).Perm (x :: ((A ++ B) ++ C)) := List.perm_middle
  simpa [List.append_assoc] using h.symm

/-- On a dense collection of `n` tracks, the SQL `MAX(track_order)` is `n`. -/
theorem maxOrd_of_perm_range (l : List Int) (n : Nat)
    (h : l.Perm (intRange 1 n)) : maxOrd l = n := by
  cases l with
  | nil =>
      have h0 : intRange 1 n = [] := List.Perm.eq_nil h.symm
      have hn : n = 0 := by
        have hl := congrArg List.length h0
        simpa [intRange_length] using hl
      simp [maxOrd, hn]
  | cons x xs =>
      have hn1 : 1 ≤ n := by
        have hlen := h.length_eq
        simp [intRange_length] at hlen
        omega
      have hub : ∀ y ∈ x :: xs, y ≤ (n : Int) := by
        intro y hy
        have hy2 := mem_intRange.mp (h.mem_iff.mp hy)
        omega
      have hmem : (n : Int) ∈ x :: xs := by
        apply h.mem_iff.mpr
        exact mem_intRange.mpr ⟨by exact_mod_cast hn1, by omega⟩
      simp only [maxOrd]
      apply le_antisymm
      · exact foldl_max_le xs x n (hub x (by simp)) (fun y hy => hub y (by simp [hy]))
      · rcases List.mem_cons.mp hmem with heq | hmem'
        · exact le_trans heq.le (le_foldl_max xs x)
        · exact mem_le_foldl_max xs x _ hmem'

/-! ### Order-multiset effect of each operation -/

/-- Inserting at a requested position `r` with `1 ≤ r ≤ n + 1` keeps the
orders dense. -/
theorem insert_orders_perm (n : Nat) (r : Int) (l : List Int)
    (h1 : 1 ≤ r) (h2 : r ≤ (n : Int) + 1) (hl : l.Perm (intRange 1 n)) :
    (l.map (fun x => if r ≤ x then x + 1 else x) ++ [r]).Perm (intRange 1 (n + 1)) := by
  set f : Int → Int := fun x => if r ≤ x then x + 1 else x with hf
  have hk : ((r - 1).toNat : Int) = r - 1 := Int.toNat_of_nonneg (by omega)
  set k := (r - 1).toNat with hkdef
  have hkn : k ≤ n := by omega
  set m := n - k with hmdef
  have hsplit : intRange 1 n = intRange 1 k ++ intRange (1 + k) m := by
    have hm : n = k + m := by omega
    rw [hm]
    exact intRange_append 1 k m
  have hpart1 : (intRange 1 k).map f = intRange 1 k := by
    have hh := intRange_map_agree f 0 1 k (fun x hx1 hx2 => by
      simp only [hf]
      rw [if_neg (by omega)]
      ring)
    simpa using hh
  have hpart2 : (intRange (1 + (k : Int)) m).map f = intRange (r + 1) m := by
    have hh := intRange_map_agree f 1 (1 + k) m (fun x hx1 hx2 => by
      simp only [hf]
      rw [if_pos (by omega)])
    rw [hh]
    congr 1
    omega
  have hmap : (l.map f).Perm (intRange 1 k ++ intRange (r + 1) m) := by
    have h3 := hl.map f
    rw [hsplit, List.map_append, hpart1, hpart2] at h3
    exact h3
  have htarget : intRange 1 (n + 1) = intRange 1 k ++ r :: intRange (r + 1) m := by
    have hn1 : n + 1 = k + 1 + m := by omega
    rw [hn1, intRange_peel]
    have e1 : (1 : Int) + k = r := by omega
    rw [e1]
  rw [htarget]
  exact (List.perm_append_singleton r (l.map f)).trans
    ((hmap.cons r).trans (perm_cons_middle r _ _))

/-- Removing the element at position `o` and closing the gap keeps the
orders dense. -/
theorem remove_orders_perm (n : Nat) (o : Int) (l : List Int)
    (h : (o :: l).Perm (intRange 1 n)) :
    (l.map (fun x => if o < x then x - 1 else x)).Perm (intRange 1 (n - 1)) := by
  set f : Int → Int := fun x => if o < x then x - 1 else x with hf
  have hmem := mem_intRange.mp (h.mem_iff.mp (List.mem_cons_self o l))
  have hk : ((o - 1).toNat : Int) = o - 1 := Int.toNat_of_nonneg (by omega)
  set k := (o - 1).toNat with hkdef
  set m := n - 1 - k with hmdef
  have hsplit : intRange 1 n = intRange 1 k ++ o :: intRange (o + 1) m := by
    have hn : n = k + 1 + m := by omega
    rw [hn, intRange_peel]
    have e1 : (1 : Int) + k = o := by omega
    rw [e1]
  have hl : l.Perm (intRange 1 k ++ intRange (o + 1) m) := by
    rw [hsplit] at h
    exact (h.trans List.perm_middle).cons_inv
  have hpart1 : (intRange 1 k).map f = intRange 1 k := by
    have hh := intRange_map_agree f 0 1 k (fun x hx1 hx2 => by
      simp only [hf]
      rw [if_neg (by omega)]
      ring)
    simpa using hh
  have hpart2 : (intRange (o + 1) m).map f = intRange o m := by
    have hh := intRange_map_agree f (-1) (o + 1) m (fun x hx1 hx2 => by
      simp only [hf]
      rw [if_pos (by omega)]
      ring)
    rw [hh]
    congr 1
    ring
  have hmap := hl.map f
  rw [List.map_append, hpart1, hpart2] at hmap
  have htarget : intRange 1 (n - 1) = intRange 1 k ++ intRange o m := by
    have hn : n - 1 = k + m := by omega
    rw [hn, intRange_append]
    have e1 : (1 : Int) + k = o := by omega
    rw [e1]
  rw [htarget]
  exact hmap

/-- Moving a track from `oldo` to a higher position `newo ≤ n` (shifting
the strictly intervening tracks down) keeps the orders dense. -/
theorem reorder_up_orders_perm (n : Nat) (oldo newo : Int) (l : List Int)
    (h : (oldo :: l).Perm (intRange 1 n)) (h2 : newo ≤ (n : Int)) (hlt : oldo < newo) :
    (newo :: l.map (fun x => if oldo < x ∧ x ≤ newo then x - 1 else x)).Perm
      (intRange 1 n) := by
  set f : Int → Int := fun x => if oldo < x ∧ x ≤ newo then x - 1 else x with hf
  have hmem := mem_intRange.mp (h.mem_iff.mp (List.mem_cons_self oldo l))
  have ha : ((oldo - 1).toNat : Int) = oldo - 1 := Int.toNat_of_nonneg (by omega)
  set a := (oldo - 1).toNat with hadef
  have hbb : ((newo - oldo - 1).toNat : Int) = newo - oldo - 1 :=
    Int.toNat_of_nonneg (by omega)
  set b := (newo - oldo - 1).toNat with hbdef
  have hc : (((n : Int) - newo).toNat : Int) = (n : Int) - newo :=
    Int.toNat_of_nonneg (by omega)
  set c := ((n : Int) - newo).toNat with hcdef
  have hsplit : intRange 1 n
      = intRange 1 a ++ oldo :: (intRange (oldo + 1) (b + 1) ++ intRange (newo + 1) c) := by
    have hn : n = a + 1 + (b + 1 + c) := by omega
    rw [hn, intRange_peel]
    have e1 : (1 : Int) + a = oldo := by omega
    rw [e1, intRange_append (oldo + 1) (b + 1) c]
    have e3 : oldo + 1 + ((b + 1 : Nat) : Int) = newo + 1 := by push_cast; omega
    rw [e3]
  have hl2 : l.Perm
      (intRange 1 a ++ (intRange (oldo + 1) (b + 1) ++ intRange (newo + 1) c)) := by
    rw [hsplit] at h
    exact (h.trans List.perm_middle).cons_inv
  have hp1 : (intRange 1 a).map f = intRange 1 a := by
    have hh := intRange_map_agree f 0 1 a (fun x hx1 hx2 => by
      simp only [hf]
      rw [if_neg (by omega)]
      ring)
    simpa using hh
  have hp2 : (intRange (oldo + 1) (b + 1)).map f = intRange oldo (b + 1) := by
    have hh := intRange_map_agree f (-1) (oldo + 1) (b + 1) (fun x hx1 hx2 => by
      simp only [hf]
      rw [if_pos (by push_cast at hx2; omega)]
      ring)
    rw [hh]
    congr 1
    ring
  have hp3 : (intRange (newo + 1) c).map f = intRange (newo + 1) c := by
    have hh := intRange_map_agree f 0 (newo + 1) c (fun x hx1 hx2 => by
      simp only [hf]
      rw [if_neg (by omega)]
      ring)
    simpa using hh
  have hmap := hl2.map f
  rw [List.map_append, List.map_append, hp1, hp2, hp3] at hmap
  have htarget : intRange 1 n
      = intRange 1 a ++ (intRange oldo (b + 1) ++ newo :: intRange (newo + 1) c) := by
    have hn2 : n = a + ((b + 1) + (1 + c)) := by omega
    rw [hn2, intRange_append 1 a, intRange_append _ (b + 1) (1 + c)]
    have e1 : (1 : Int) + a = oldo := by omega
    rw [e1]
    have e4 : oldo + ((b + 1 : Nat) : Int) = newo := by push_cast; omega
    rw [e4, Nat.add_comm 1 c, intRange_succ newo c]
  rw [htarget]
  exact (hmap.cons newo).trans (perm_cons_middle₂ newo _ _ _)

/-- Moving a track from `oldo` down to a lower position `newo ≥ 1`
(shifting the intervening tracks up) keeps the orders dense. -/
theorem reorder_down_orders_perm (n : Nat) (oldo newo : Int) (l : List Int)
    (h : (oldo :: l).Perm (intRange 1 n)) (h1 : 1 ≤ newo) (hlt : newo < oldo) :
    (newo :: l.map (fun x => if newo ≤ x ∧ x < oldo then x + 1 else x)).Perm
      (intRange 1 n) := by
  set f : Int → Int := fun x => if newo ≤ x ∧ x < oldo then x + 1 else x with hf
  have hmem := mem_intRange.mp (h.mem_iff.mp (List.mem_cons_self oldo l))
  have ha : ((newo - 1).toNat : Int) = newo - 1 := Int.toNat_of_nonneg (by omega)
  set a := (newo - 1).toNat with hadef
  have hbb : ((oldo - newo - 1).toNat : Int) = oldo - newo - 1 :=
    Int.toNat_of_nonneg (by omega)
  set b := (oldo - newo - 1).toNat with hbdef
  have hc : (((n : Int) - oldo).toNat : Int) = (n : Int) - oldo :=
    Int.toNat_of_nonneg (by omega)
  set c := ((n : Int) - oldo).toNat with hcdef
  have hsplit : intRange 1 n
      = intRange 1 a ++ (intRange newo (b + 1) ++ oldo :: intRange (oldo + 1) c) := by
    have hn : n = a + ((b + 1) + (1 + c)) := by omega
    rw [hn, intRange_append 1 a, intRange_append _ (b + 1) (1 + c)]
    have e1 : (1 : Int) + a = newo := by omega
    rw [e1]
    have e4 : newo + ((b + 1 : Nat) : Int) = oldo := by push_cast; omega
    rw [e4, Nat.add_comm 1 c, intRange_succ oldo c]
  have hl2 : l.Perm
      (intRange 1 a ++ (intRange newo (b + 1) ++ intRange (oldo + 1) c)) := by
    rw [hsplit] at h
    exact (h.trans (perm_cons_middle₂ oldo _ _ _).symm).cons_inv
  have hp1 : (intRange 1 a).map f = intRange 1 a := by
    have hh := intRange_map_agree f 0 1 a (fun x hx1 hx2 => by
      simp only [hf]
      rw [if_neg (by omega)]
      ring)
    simpa using hh
  have hp2 : (intRange newo (b + 1)).map f = intRange (newo + 1) (b + 1) := by
    have hh := intRange_map_agree f 1 newo (b + 1) (fun x hx1 hx2 => by
      simp only [hf]
      rw [if_pos (by push_cast at hx2; omega)])
    rw [hh]
  have hp3 : (intRange (oldo + 1) c).map f = intRange (oldo + 1) c := by
    have hh := intRange_map_agree f 0 (oldo + 1) c (fun x hx1 hx2 => by
      simp only [hf]
      rw [if_neg (by omega)]
      ring)
    simpa using hh
  have hmap := hl2.map f
  rw [List.map_append, List.map_append, hp1, hp2, hp3] at hmap
  have htarget : intRange 1 n
      = intRange 1 a ++ newo :: (intRange (newo + 1) (b + 1) ++ intRange (oldo + 1) c) := by
    have hn3 : n = a + 1 + ((b + 1) + c) := by omega
    rw [hn3, intRange_peel]
    have e1 : (1 : Int) + a = newo := by omega
    rw [e1, intRange_append (newo + 1) (b + 1) c]
    have e5 : newo + 1 + ((b + 1 : Nat) : Int) = oldo + 1 := by push_cast; omega
    rw [e5]
  rw [htarget]
  exact (hmap.cons newo).trans (perm_cons_middle newo _ _)

/-! ### Dense-ordering preservation, operation by operation -/

theorem length_addTrack (s : TracksState) (afId : Nat) (req : Option Int) :
    (addTrack s afId req).tracks.length = s.tracks.length + 1 := by
  cases req <;> simp [addTrack, mapOrd]

theorem length_reorderTrack (s : TracksState) (tid : Nat) (v : Int) :
    (reorderTrack s tid v).tracks.length = s.tracks.length := by
  cases hfind : s.tracks.find? (fun t => t.id == tid) with
  | none => simp [reorderTrack, hfind]
  | some t =>
      by_cases hveq : v = t.ord
      · simp [reorderTrack, hfind, hveq]
      · by_cases hlt : t.ord < v
        · simp [reorderTrack, hfind, hveq, hlt, length_setOrdFirst, length_mapOrd]
        · simp [reorderTrack, hfind, hveq, hlt, length_setOrdFirst, length_mapOrd]

theorem dense_addTrack (s : TracksState) (afId : Nat) (req : Option Int)
    (hd : denseOrders s) (hv : validTrackOp s (.append afId req)) :
    denseOrders (addTrack s afId req) := by
  cases req with
  | none =>
      have hmax : maxOrd (trackOrders s.tracks) = (s.tracks.length : Int) :=
        maxOrd_of_perm_range _ _ hd
      unfold denseOrders
      have htr : (addTrack s afId none).tracks
          = s.tracks ++ [⟨s.nextId, afId, maxOrd (trackOrders s.tracks) + 1⟩] := rfl
      rw [htr, trackOrders_append, List.length_append, List.length_singleton]
      have h1 : trackOrders [(⟨s.nextId, afId, maxOrd (trackOrders s.tracks) + 1⟩ : Track)]
          = [(s.tracks.length : Int) + 1] := by
        have h0 : trackOrders [(⟨s.nextId, afId, maxOrd (trackOrders s.tracks) + 1⟩ : Track)]
            = [maxOrd (trackOrders s.tracks) + 1] := rfl
        rw [h0, hmax]
      rw [h1]
      have hsplit : intRange 1 (s.tracks.length + 1)
          = intRange 1 s.tracks.length ++ [(s.tracks.length : Int) + 1] := by
        rw [intRange_append 1 s.tracks.length 1, intRange_one]
        congr 2
        ring
      rw [hsplit]
      exact List.Perm.append_right _ hd
  | some r =>
      obtain ⟨hr1, hr2⟩ := hv
      unfold denseOrders
      have htr : (addTrack s afId (some r)).tracks
          = mapOrd (fun x => if r ≤ x then x + 1 else x) s.tracks
            ++ [⟨s.nextId, afId, r⟩] := rfl
      rw [htr, trackOrders_append, List.length_append, List.length_singleton,
        length_mapOrd, trackOrders_mapOrd]
      have h1 : trackOrders [(⟨s.nextId, afId, r⟩ : Track)] = [r] := rfl
      rw [h1]
      exact insert_orders_perm s.tracks.length r _ hr1 hr2 hd

theorem dense_removeTrack (s : TracksState) (tid : Nat) (hd : denseOrders s) :
    denseOrders (removeTrack s tid) := by
  cases hfind : s.tracks.find? (fun t => t.id == tid) with
  | none => simpa [removeTrack, hfind] using hd
  | some t =>
      have htr : (removeTrack s tid).tracks
          = mapOrd (fun x => if t.ord < x then x - 1 else x)
            (removeFirst tid s.tracks) := by
        simp [removeTrack, hfind]
      have hperm := find?_orders_perm tid s.tracks t hfind
      have hd2 : (t.ord :: trackOrders (removeFirst tid s.tracks)).Perm
          (intRange 1 s.tracks.length) := hperm.symm.trans hd
      have hres := remove_orders_perm s.tracks.length t.ord _ hd2
      have hlen : (removeFirst tid s.tracks).length = s.tracks.length - 1 := by
        have h1 := hd2.length_eq
        simp only [List.length_cons, intRange_length, length_trackOrders] at h1
        omega
      unfold denseOrders
      rw [htr, trackOrders_mapOrd, length_mapOrd, hlen]
      exact hres

theorem dense_reorderTrack (s : TracksState) (tid : Nat) (v : Int)
    (hd : denseOrders s) (hv : validTrackOp s (.reorder tid v)) :
    denseOrders (reorderTrack s tid v) := by
  obtain ⟨hv1, hv2⟩ := hv
  cases hfind : s.tracks.find? (fun t => t.id == tid) with
  | none => simpa [reorderTrack, hfind] using hd
  | some t =>
      by_cases hveq : v = t.ord
      · simpa [reorderTrack, hfind, hveq] using hd
      · have hperm := find?_orders_perm tid s.tracks t hfind
        have hd2 : (t.ord :: trackOrders (removeFirst tid s.tracks)).Perm
            (intRange 1 s.tracks.length) := hperm.symm.trans hd
        by_cases hlt : t.ord < v
        · have htr : (reorderTrack s tid v).tracks
              = setOrdFirst tid v
                (mapOrd (fun x => if t.ord < x ∧ x ≤ v then x - 1 else x)
                  (setOrdFirst tid (-1) s.tracks)) := by
            simp [reorderTrack, hfind, hveq, hlt]
          have hshape := reorder_shape tid (-1) v
            (fun x => if t.ord < x ∧ x ≤ v then x - 1 else x) s.tracks t hfind
          have hres := reorder_up_orders_perm s.tracks.length t.ord v _ hd2 hv2 hlt
          unfold denseOrders
          rw [htr, length_setOrdFirst, length_mapOrd, length_setOrdFirst]
          exact hshape.trans hres
        · have hlt2 : v < t.ord := by omega
          have htr : (reorderTrack s tid v).tracks
              = setOrdFirst tid v
                (mapOrd (fun x => if v ≤ x ∧ x < t.ord then x + 1 else x)
                  (setOrdFirst tid (-1) s.tracks)) := by
            simp [reorderTrack, hfind, hveq, hlt]
          have hshape := reorder_shape tid (-1) v
            (fun x => if v ≤ x ∧ x < t.ord then x + 1 else x) s.tracks t hfind
          have hres := reorder_down_orders_perm s.tracks.length t.ord v _ hd2 hv1 hlt2
          unfold denseOrders
          rw [htr, length_setOrdFirst, length_mapOrd, length_setOrdFirst]
          exact hshape.trans hres

theorem dense_bulkAddAux (ids : List Nat) (s : TracksState) (start : Int)
    (hd : denseOrders s) (hstart : start = (s.tracks.length : Int) + 1) :
    denseOrders (bulkAddAux ids start s) := by
  induction ids generalizing s start with
  | nil => exact hd
  | cons afId rest ih =>
      simp only [bulkAddAux]
      apply ih
      · exact dense_addTrack s afId (some start) hd ⟨by omega, by omega⟩
      · rw [length_addTrack]
        push_cast
        omega

theorem dense_bulkAddTracks (s : TracksState) (ids : List Nat) (hd : denseOrders s) :
    denseOrders (bulkAddTracks s ids) := by
  apply dense_bulkAddAux ids s _ hd
  rw [maxOrd_of_perm_range _ _ hd]

theorem dense_bulkReorderTracks (items : List (Nat × Int)) (s : TracksState)
    (hd : denseOrders s)
    (hv : ∀ p ∈ items, 1 ≤ p.2 ∧ p.2 ≤ (s.tracks.length : Int)) :
    denseOrders (bulkReorderTracks s items) := by
  induction items generalizing s with
  | nil => exact hd
  | cons p rest ih =>
      simp only [bulkReorderTracks, List.foldl_cons]
      have h1 := hv p (by simp)
      have hd1 : denseOrders (reorderTrack s p.1 p.2) :=
        dense_reorderTrack s p.1 p.2 hd h1
      have hlen := length_reorderTrack s p.1 p.2
      apply ih _ hd1
      intro q hq
      have h2 := hv q (by simp [hq])
      rw [hlen]
      exact h2

theorem dense_applyTrackOp (s : TracksState) (op : TrackOp)
    (hd : denseOrders s) (hv : validTrackOp s op) :
    denseOrders (applyTrackOp s op) := by
  cases op with
  | append af req => exact dense_addTrack s af req hd hv
  | remove tid => exact dense_removeTrack s tid hd
  | reorder tid v => exact dense_reorderTrack s tid v hd hv
  | bulkAdd ids => exact dense_bulkAddTracks s ids hd
  | bulkReorder items => exact dense_bulkReorderTracks items s hd hv

theorem dense_applyTrackOps_of_valid (l₁ l₂ : List TrackOp) (s : TracksState)
    (hd : denseOrders s) (hv : validTrackOps s (l₁ ++ l₂)) :
    denseOrders (applyTrackOps s l₁) := by
  induction l₁ generalizing s l₂ with
  | nil => exact hd
  | cons op rest ih =>
      obtain ⟨h1, h2⟩ := hv
      show denseOrders (applyTrackOps (applyTrackOp s op) rest)
      exact ih l₂ (applyTrackOp s op) (dense_applyTrackOp s op hd h1) h2

/-! ## Claim C1 — dense track ordering -/

/-- C1 counterexample: the claim as stated is false.  Through the CRUD
layer, appending to an empty collection with the explicit requested order
`2` (`add_track_to_collection` performs no range check on
`track_data.track_order`) leaves the order multiset `{2}`, not `{1}`. -/
theorem C1_counterexample :
    ¬ denseOrders (applyTrackOps ⟨0, []⟩ [TrackOp.append 7 (some 2)]) := by
  decide

/-- C1 (amended): for every collection and every sequence of append /
remove / reorder / bulk-add / bulk-reorder operations applied through the
CRUD layer **whose explicitly requested positions are in range** (append
order in `1..n+1`, reorder target in `1..n`, for `n` the track count when
the operation runs), after each operation the multiset of `track_order`
values is exactly `{1, …, n}` where `n` is the current track count. -/
theorem C1_dense_ordering_invariant (s : TracksState) (ops l₁ l₂ : List TrackOp)
    (hd : denseOrders s) (hsplit : ops = l₁ ++ l₂) (hv : validTrackOps s ops) :
    denseOrders (applyTrackOps s l₁) := by
  subst hsplit
  exact dense_applyTrackOps_of_valid l₁ l₂ s hd hv

theorem C1_witness :
    denseOrders (applyTrackOps ⟨0, []⟩
      [TrackOp.append 5 none, TrackOp.append 6 (some 1), TrackOp.remove 0]) :=
  C1_dense_ordering_invariant ⟨0, []⟩
    [TrackOp.append 5 none, TrackOp.append 6 (some 1), TrackOp.remove 0]
    [TrackOp.append 5 none, TrackOp.append 6 (some 1), TrackOp.remove 0] []
    (by decide) (by simp)
    ⟨trivial, ⟨by decide, by decide⟩, trivial, trivial⟩

/-! ## Claim C2 — refresh-token rotation -/

/-- C2: for every valid refresh token (type claim `refresh`, carrying a
`jti` and an expiry, subject resolving to an existing user, not yet
revoked), the exchange succeeds, records the presented `jti` in the
revocation blacklist with reason `token_refresh`, and issues a fresh pair
for the user; presenting the same refresh token again fails with 401. -/
theorem C2_refresh_rotation (db : DB) (p : TokenPayload) (raw : String)
    (now now2 : Int) (u : UserRec) (uname j : String) (e : Int)
    (hsub : p.sub = some uname) (htype : p.tokenType = some "refresh")
    (hjti : p.jti = some j) (hexp : p.exp = some e)
    (huser : getUserByUsername db uname = some u)
    (hnotrevoked : isTokenRevoked db j = false) :
    ∃ db2 : DB,
      refreshEndpoint db (some p) raw now = .ok (db2, u.username) ∧
      (∃ rec ∈ db2.revokedTokens, rec.jti = j ∧ rec.reason = some "token_refresh") ∧
      ∀ raw2 : String, refreshEndpoint db2 (some p) raw2 now2 = .error 401 := by
  have hmem : (⟨j, raw, "refresh", u.id, e, some "token_refresh"⟩ : RevokedTokenRec)
      ∈ (createAuditLog (addRevokedToken db j raw "refresh" u.id e (some "token_refresh"))
        "token.refresh" (some u.id)
        (some ("Token refreshed for user: " ++ u.username)) true now).revokedTokens := by
    show _ ∈ (addRevokedToken db j raw "refresh" u.id e (some "token_refresh")).revokedTokens
    simp only [addRevokedToken, hnotrevoked, Bool.false_eq_true, if_false]
    exact List.mem_append_right _ (List.mem_singleton_self _)
  refine ⟨createAuditLog (addRevokedToken db j raw "refresh" u.id e (some "token_refresh"))
    "token.refresh" (some u.id) (some ("Token refreshed for user: " ++ u.username)) true now,
    ?_, ?_, ?_⟩
  · simp only [refreshEndpoint, hjti, hnotrevoked, hsub, htype, huser, hexp,
      Bool.false_eq_true, if_false, ne_eq, not_true_eq_false]
  · exact ⟨_, hmem, rfl, rfl⟩
  · intro raw2
    have hrev : isTokenRevoked
        (createAuditLog (addRevokedToken db j raw "refresh" u.id e (some "token_refresh"))
          "token.refresh" (some u.id)
          (some ("Token refreshed for user: " ++ u.username)) true now) j = true :=
      List.any_eq_true.mpr ⟨_, hmem, by simp⟩
    simp only [refreshEndpoint, hjti, hrev, if_true]

theorem C2_witness :
    ∃ db2 : DB,
      refreshEndpoint { emptyDB with users := [aliceUser] }
        (some ⟨some "alice", some "refresh", some "j1", some 1000⟩) "raw" 0
        = .ok (db2, aliceUser.username) ∧
      (∃ rec ∈ db2.revokedTokens, rec.jti = "j1" ∧ rec.reason = some "token_refresh") ∧
      ∀ raw2 : String,
        refreshEndpoint db2 (some ⟨some "alice", some "refresh", some "j1", some 1000⟩)
          raw2 5 = .error 401 :=
  C2_refresh_rotation { emptyDB with users := [aliceUser] }
    ⟨some "alice", some "refresh", some "j1", some 1000⟩ "raw" 0 5
    aliceUser "alice" "j1" 1000 rfl rfl rfl rfl (by decide) (by decide)


/-! ## Claim C3 — access-token resolution checks -/

/-- C3 counterexample: the claim as stated ("…this holds for every
endpoint's resolution path") is false.  `app/dependencies.py::
get_current_user` — the resolver used by the users, audio and collections
routers — accepts a token whose `jti` is on the revocation blacklist. -/
theorem C3_counterexample :
    isTokenRevoked dbWithRevoked "j1" = true ∧
    dependenciesGetCurrentUser dbWithRevoked
      (some ⟨some "alice", some "access", some "j1", some 1000⟩)
      = .ok aliceUser := by
  exact ⟨rfl, rfl⟩

/-- C3 (amended): the resolver in `app/core/security.py` rejects with 401
whenever the decode fails, the type claim is not `access`, the `jti` is on
the revocation blacklist, or the subject does not name an existing user;
but the resolver in `app/dependencies.py` (used by the users, audio and
collections routers) checks only decodability and subject existence, so
the property does not hold for every endpoint's resolution path. -/
theorem C3_security_resolver_checks (db : DB) (p : TokenPayload) :
    (securityGetCurrentUser db none = .error 401) ∧
    (p.tokenType ≠ some "access" → securityGetCurrentUser db (some p) = .error 401) ∧
    (∀ j, p.jti = some j → isTokenRevoked db j = true →
      securityGetCurrentUser db (some p) = .error 401) ∧
    (∀ uname, p.sub = some uname → getUserByUsername db uname = none →
      securityGetCurrentUser db (some p) = .error 401) ∧
    (p.sub = none → securityGetCurrentUser db (some p) = .error 401) ∧
    (∀ u, dependenciesGetCurrentUser db (some p) = .ok u →
      ∃ uname, p.sub = some uname ∧ getUserByUsername db uname = some u) := by
  refine ⟨rfl, ?_, ?_, ?_, ?_, ?_⟩
  · intro htype
    simp [securityGetCurrentUser, htype]
  · intro j hj hrev
    by_cases htype : p.tokenType = some "access"
    · simp [securityGetCurrentUser, htype, hj, hrev]
    · simp [securityGetCurrentUser, htype]
  · intro uname hsub hnone
    by_cases htype : p.tokenType = some "access"
    · by_cases hrev : (match p.jti with | some j => isTokenRevoked db j | none => false) = true
      · simp [securityGetCurrentUser, htype, hrev]
      · simp only [Bool.not_eq_true] at hrev
        simp [securityGetCurrentUser, htype, hrev, hsub, hnone]
    · simp [securityGetCurrentUser, htype]
  · intro hsub
    by_cases htype : p.tokenType = some "access"
    · by_cases hrev : (match p.jti with | some j => isTokenRevoked db j | none => false) = true
      · simp [securityGetCurrentUser, htype, hrev]
      · simp only [Bool.not_eq_true] at hrev
        simp [securityGetCurrentUser, htype, hrev, hsub]
    · simp [securityGetCurrentUser, htype]
  · intro u hu
    cases hsub : p.sub with
    | none => simp [dependenciesGetCurrentUser, hsub] at hu
    | some uname =>
        cases hfind : getUserByUsername db uname with
        | none => simp [dependenciesGetCurrentUser, hsub, hfind] at hu
        | some v =>
            simp [dependenciesGetCurrentUser, hsub, hfind] at hu
            exact ⟨uname, rfl, hu ▸ hfind⟩

theorem C3_witness :
    securityGetCurrentUser dbWithRevoked
      (some ⟨some "alice", some "access", some "j1", some 1000⟩) = .error 401 :=
  (C3_security_resolver_checks dbWithRevoked
    ⟨some "alice", some "access", some "j1", some 1000⟩).2.2.1 "j1" rfl (by decide)

/-! ## Claim C4 — collection visibility -/

/-- C4 counterexample: the claim's anonymous conjuncts are false.  The
`get_collection` route's `get_optional_current_user` dependency is wired
through `security = HTTPBearer()` (dependencies.py:12) with the default
`auto_error=True`, so a request with no `Authorization` header is
answered 403 "Not authenticated" at the dependency layer and never
reaches the handler: a public collection is not returned to an anonymous
caller, and a private collection draws the dependency's 403, not the
handler's 401. -/
theorem C4_counterexample :
    getCollection dbPublicCollection 11 = some ⟨11, 1, true, false, none⟩ ∧
    getCollectionEndpoint dbPublicCollection 11 .absent = .error 403 ∧
    getCollectionEndpoint dbPrivateCollection 10 .absent = .error 403 ∧
    (Except.error 403 : Except Nat CollectionView) ≠ .error 401 := by
  refine ⟨rfl, rfl, rfl, ?_⟩
  intro h
  injection h with h2
  exact absurd h2 (by decide)

/-- C4 (amended): a request presenting no `Authorization` header is
rejected with 403 by the `HTTPBearer` dependency before the handler runs,
for public and private collections alike.  For a request that does reach
the handler (some bearer credentials present), with the dependency
resolving the caller to `none` (undecodable token, missing subject,
unknown or inactive user) or to an active user: every public collection
is returned; a private collection yields 401 when the caller resolves to
no user, is returned to its owner, its collaborators and superusers, and
yields 403 for any other resolved caller. -/
theorem C4_collection_visibility (db : DB) (cid : Nat) (c : CollectionRec)
    (hc : getCollection db cid = some c) :
    (getCollectionEndpoint db cid .absent = .error 403) ∧
    (c.isPublic = true → ∀ (h : BearerHeader) (cu : Option UserRec),
      getOptionalCurrentUser db h = .ok cu →
      ∃ v : CollectionView, getCollectionEndpoint db cid h = .ok v) ∧
    (c.isPublic = false → ∀ h : BearerHeader,
      getOptionalCurrentUser db h = .ok none →
      getCollectionEndpoint db cid h = .error 401) ∧
    (c.isPublic = false → ∀ (h : BearerHeader) (u : UserRec),
      getOptionalCurrentUser db h = .ok (some u) →
      u.id = c.ownerId ∨ (findCollaborator db cid u.id).isSome = true ∨
        u.isSuperuser = true →
      ∃ v : CollectionView, getCollectionEndpoint db cid h = .ok v) ∧
    (c.isPublic = false → ∀ (h : BearerHeader) (u : UserRec),
      getOptionalCurrentUser db h = .ok (some u) →
      u.id ≠ c.ownerId → findCollaborator db cid u.id = none → u.isSuperuser = false →
      getCollectionEndpoint db cid h = .error 403) := by
  refine ⟨rfl, ?_, ?_, ?_, ?_⟩
  · intro hpub h cu hcu
    cases cu with
    | none => exact ⟨⟨c.id, false⟩, by simp [getCollectionEndpoint, hcu, hc, hpub]⟩
    | some u =>
        exact ⟨⟨c.id, (userCanEditCollection db cid u.id).1⟩,
          by simp [getCollectionEndpoint, hcu, hc, hpub]⟩
  · intro hpriv h hcu
    simp [getCollectionEndpoint, hcu, hc, hpriv]
  · intro hpriv h u hcu hcase
    have hview : (if u.isSuperuser = true then true
        else (userCanViewCollection db cid u.id).1) = true := by
      by_cases hsu2 : u.isSuperuser = true
      · simp [hsu2]
      · simp only [hsu2, if_false]
        rcases hcase with howner | hcollab | hsu
        · simp [userCanViewCollection, hc, howner]
        · by_cases hbeq : (c.ownerId == u.id) = true
          · simp [userCanViewCollection, hc, hbeq]
          · obtain ⟨cc, hcc⟩ := Option.isSome_iff_exists.mp hcollab
            simp only [Bool.not_eq_true] at hbeq
            simp [userCanViewCollection, hc, hbeq, hpriv, hcc]
        · exact absurd hsu hsu2
    refine ⟨⟨c.id, (userCanEditCollection db cid u.id).1⟩, ?_⟩
    simp [getCollectionEndpoint, hcu, hc, hpriv, hview]
  · intro hpriv h u hcu hno hcol hsu
    have hbeq : (c.ownerId == u.id) = false := beq_eq_false_iff_ne.mpr (Ne.symm hno)
    simp [getCollectionEndpoint, hcu, hc, hpriv, userCanViewCollection, hbeq, hcol, hsu]

theorem C4_witness :
    (∃ v : CollectionView,
      getCollectionEndpoint dbPrivateCollection 10
        (.valid ⟨some "alice", some "access", some "j1", some 1000⟩) = .ok v) ∧
    getCollectionEndpoint dbPrivateCollection 10 .absent = .error 403 :=
  ⟨(C4_collection_visibility dbPrivateCollection 10 ⟨10, 1, false, false, none⟩
      rfl).2.2.2.1 rfl (.valid ⟨some "alice", some "access", some "j1", some 1000⟩)
      aliceUser rfl (Or.inl rfl),
   (C4_collection_visibility dbPrivateCollection 10 ⟨10, 1, false, false, none⟩ rfl).1⟩

/-! ## Claim C5 — maintenance gate -/

/-- C5 counterexample: with maintenance enabled, a non-superuser request
to a non-exempt path is served normally by the application, not answered
with 503 — the maintenance middleware exists but `app/main.py` never
registers it — even though the middleware function itself would block the
very same request. -/
theorem C5_counterexample :
    appServe emptyDB ⟨true, "Service temporarily unavailable for maintenance"⟩ false
      ⟨"/api/v1/users/me", .absent⟩ = .routed "/api/v1/users/me" ∧
    maintenanceModeMiddleware emptyDB
      ⟨true, "Service temporarily unavailable for maintenance"⟩
      ⟨"/api/v1/users/me", .absent⟩
      = .block503 "Service temporarily unavailable for maintenance" 3600 := ⟨rfl, rfl⟩

/-- C5 (amended): the middleware function in
`app/middleware/maintenance.py` implements the described gate — with
maintenance enabled it answers 503 with `Retry-After: 3600` and the
configured message unless the path is exempt or the bearer token resolves
to a superuser, and it passes exempt paths and superusers through — but
`app/main.py` never registers it (the installed chain is SlowAPI rate
limiting, security headers, CORS, trusted hosts), so no request served by
the application passes through the gate and the maintenance state does
not affect request handling. -/
theorem C5_maintenance_gate :
    (∀ (db : DB) (ms : MaintState) (req : HttpRequest),
      ms.enabled = true → req.path ≠ "/health" →
      req.path.startsWith "/api/v1/admin/maintenance" = false →
      (∀ p uname u, req.auth = .valid p → p.sub = some uname →
        getUserByUsername db uname = some u → u.isSuperuser = false) →
      maintenanceModeMiddleware db ms req = .block503 ms.message 3600) ∧
    (∀ (db : DB) (ms : MaintState) (req : HttpRequest) (p : TokenPayload)
      (uname : String) (u : UserRec),
      req.auth = .valid p → p.sub = some uname →
      getUserByUsername db uname = some u → u.isSuperuser = true →
      maintenanceModeMiddleware db ms req = .passThrough) ∧
    (∀ (db : DB) (ms : MaintState) (req : HttpRequest),
      req.path = "/health" ∨ req.path.startsWith "/api/v1/admin/maintenance" = true →
      maintenanceModeMiddleware db ms req = .passThrough) ∧
    AppMiddlewareKind.maintenanceGate ∉ mainAppMiddlewares ∧
    (∀ (db : DB) (ms : MaintState) (req : HttpRequest),
      appServe db ms false req = .routed req.path) := by
  refine ⟨?_, ?_, ?_, ?_, ?_⟩
  · intro db ms req hen hp1 hp2 hnosu
    have hb1 : (req.path == "/health") = false := beq_eq_false_iff_ne.mpr hp1
    cases hauth : req.auth with
    | absent => simp [maintenanceModeMiddleware, hb1, hp2, hen, hauth]
    | invalid => simp [maintenanceModeMiddleware, hb1, hp2, hen, hauth]
    | valid p =>
        cases hsub : p.sub with
        | none => simp [maintenanceModeMiddleware, hb1, hp2, hen, hauth, hsub]
        | some uname =>
            cases hfind : getUserByUsername db uname with
            | none => simp [maintenanceModeMiddleware, hb1, hp2, hen, hauth, hsub, hfind]
            | some u =>
                have hsu := hnosu p uname u hauth hsub hfind
                simp [maintenanceModeMiddleware, hb1, hp2, hen, hauth, hsub, hfind, hsu]
  · intro db ms req p uname u hauth hsub hfind hsu
    by_cases h1 : req.path = "/health"
    · simp [maintenanceModeMiddleware, h1]
    · have hb1 : (req.path == "/health") = false := beq_eq_false_iff_ne.mpr h1
      by_cases h2 : req.path.startsWith "/api/v1/admin/maintenance" = true
      · simp [maintenanceModeMiddleware, hb1, h2]
      · have hb2 : req.path.startsWith "/api/v1/admin/maintenance" = false :=
          Bool.not_eq_true _ ▸ h2
        by_cases hen : ms.enabled = true
        · simp [maintenanceModeMiddleware, hb1, hb2, hen, hauth, hsub, hfind, hsu]
        · have hen2 : ms.enabled = false := by
            revert hen
            cases ms.enabled <;> simp
          simp [maintenanceModeMiddleware, hb1, hb2, hen2]
  · intro db ms req hor
    rcases hor with h1 | h2
    · simp [maintenanceModeMiddleware, h1]
    · by_cases h1 : req.path = "/health"
      · simp [maintenanceModeMiddleware, h1]
      · have hb1 : (req.path == "/health") = false := beq_eq_false_iff_ne.mpr h1
        simp [maintenanceModeMiddleware, hb1, h2]
  · decide
  · intro db ms req
    rfl

theorem C5_witness :
    maintenanceModeMiddleware emptyDB ⟨true, "down"⟩ ⟨"/api/v1/collections", .absent⟩
      = .block503 "down" 3600 :=
  C5_maintenance_gate.1 emptyDB ⟨true, "down"⟩ ⟨"/api/v1/collections", .absent⟩ rfl
    (by decide) (by decide) (fun p uname u hauth _ _ => nomatch hauth)

/-! ## Claim C6 — upload quota -/

/-- C6: for a non-superuser the eligibility check permits an upload iff
the current audio-file count is strictly below `max_audio_uploads` (so a
user at the limit is rejected with 403 by the upload endpoint's quota
gate); a superuser is always permitted, with upload stats reporting the
sentinel `-1` for both the maximum and the remaining uploads. -/
theorem C6_upload_quota (db : DB) (uid : Nat) (u : UserRec)
    (hu : getUser db uid = some u) :
    (u.isSuperuser = false →
      ((canUserUploadAudio db uid).1 = true ↔
        (getUserAudioFilesCount db uid : Int) < u.maxAudioUploads)) ∧
    (u.isSuperuser = false →
      u.maxAudioUploads ≤ (getUserAudioFilesCount db uid : Int) →
      uploadAudioQuotaGate db uid = some 403) ∧
    (u.isSuperuser = true →
      (canUserUploadAudio db uid).1 = true ∧
      uploadAudioQuotaGate db uid = none ∧
      getUserUploadStats db uid
        = some ⟨(getUserAudioFilesCount db uid : Int), -1, -1⟩) := by
  refine ⟨?_, ?_, ?_⟩
  · intro hsu
    simp [canUserUploadAudio, hu, hsu]
  · intro hsu hge
    have h1 : (canUserUploadAudio db uid).1 = false := by
      simp only [canUserUploadAudio, hu, hsu, Bool.false_eq_true, if_false,
        decide_eq_false_iff_not, not_lt]
      exact hge
    simp [uploadAudioQuotaGate, h1]
  · intro hsu
    refine ⟨?_, ?_, ?_⟩
    · simp [canUserUploadAudio, hu, hsu]
    · simp [uploadAudioQuotaGate, canUserUploadAudio, hu, hsu]
    · simp [getUserUploadStats, hu, hsu]

theorem C6_witness :
    uploadAudioQuotaGate dbCarolFull 4 = some 403 ∧
    (canUserUploadAudio dbCarolFull 3).1 = true ∧
    getUserUploadStats dbCarolFull 3
      = some ⟨(getUserAudioFilesCount dbCarolFull 3 : Int), -1, -1⟩ :=
  ⟨(C6_upload_quota dbCarolFull 4 carolUser (by decide)).2.1 rfl (by decide),
   ((C6_upload_quota dbCarolFull 3 rootSuperuser (by decide)).2.2 rfl).1,
   ((C6_upload_quota dbCarolFull 3 rootSuperuser (by decide)).2.2 rfl).2.2⟩

/-! ## Claim C7 — forgot-password -/

/-- C7 counterexample: the claim as stated is false.  When the submitted
email matches an account but the reset email cannot be delivered
(`send_password_reset_email` returns false), `forgot_password` raises 500
instead of the generic success message, so the response differs between
matching and non-matching addresses. -/
theorem C7_counterexample :
    (forgotPassword { emptyDB with users := [aliceUser] }
      "alice@example.com" 0 "tok" none false).status = 500 ∧
    (forgotPassword { emptyDB with users := [aliceUser] }
      "other@example.com" 0 "tok" none false).status = 200 ∧
    (forgotPassword { emptyDB with users := [aliceUser] }
      "other@example.com" 0 "tok" none false).message
      = some genericResetMessage := ⟨rfl, rfl, rfl⟩

/-- C7 (amended): provided the reset-email delivery succeeds, the response
is the same generic success message whether or not the email matches an
account; on a match a reset token expiring one hour (3600 s) after
issuance is stored and the reset email is sent to the account address,
and on no match the state is unchanged and no email is sent.  When the
email matches but delivery fails, the endpoint responds 500 instead. -/
theorem C7_forgot_password (db : DB) (email : String) (now : Int) (tok : String)
    (ip : Option String) :
    (getUserByEmail db email = none → ∀ sendOk : Bool,
      forgotPassword db email now tok ip sendOk
        = ⟨200, some genericResetMessage, db, none⟩) ∧
    (∀ u : UserRec, getUserByEmail db email = some u →
      (forgotPassword db email now tok ip true).status = 200 ∧
      (forgotPassword db email now tok ip true).message = some genericResetMessage ∧
      (forgotPassword db email now tok ip true).emailedTo = some u.email ∧
      (forgotPassword db email now tok ip true).db.resetTokens
        = db.resetTokens ++ [⟨u.id, tok, now + 3600, true, ip⟩] ∧
      (forgotPassword db email now tok ip false).status = 500) := by
  constructor
  · intro hnone sendOk
    simp [forgotPassword, hnone]
  · intro u hsome
    refine ⟨?_, ?_, ?_, ?_, ?_⟩ <;>
      simp [forgotPassword, hsome, createAuditLog, createPasswordResetToken]

theorem C7_witness :
    (forgotPassword { emptyDB with users := [aliceUser] }
      "alice@example.com" 0 "tok" none true).status = 200 ∧
    (forgotPassword { emptyDB with users := [aliceUser] }
      "alice@example.com" 0 "tok" none true).db.resetTokens
      = [⟨1, "tok", 3600, true, none⟩] := by
  have h := (C7_forgot_password { emptyDB with users := [aliceUser] }
    "alice@example.com" 0 "tok" none).2 aliceUser rfl
  exact ⟨h.1, by rw [h.2.2.2.1]; rfl⟩

/-! ## Claim C8 — inactive-account rejection -/

/-- C8 counterexample: the claim as stated is false for
`app/dependencies.py::get_current_active_user` (used by the users, audio
and collections routers), which rejects an inactive account with 400, not
403. -/
theorem C8_counterexample :
    dependenciesGetCurrentActiveUser { emptyDB with users := [bobInactive] }
      (some ⟨some "bob", some "access", some "j9", some 99⟩) = .error 400 ∧
    (Except.error 400 : Except Nat UserRec) ≠ .error 403 := by
  refine ⟨rfl, ?_⟩
  intro h
  injection h with h2
  exact absurd h2 (by decide)

/-- C8 (amended): when the token resolves to an existing inactive user,
`app/core/security.py::get_current_active_user` rejects with 403, while
`app/dependencies.py::get_current_active_user` (users, audio and
collections routers) rejects with 400. -/
theorem C8_inactive_rejection (db : DB) (decoded : Option TokenPayload) (u : UserRec)
    (hinactive : u.isActive = false) :
    (securityGetCurrentUser db decoded = .ok u →
      securityGetCurrentActiveUser db decoded = .error 403) ∧
    (dependenciesGetCurrentUser db decoded = .ok u →
      dependenciesGetCurrentActiveUser db decoded = .error 400) := by
  constructor
  · intro hok
    simp [securityGetCurrentActiveUser, hok, hinactive]
  · intro hok
    simp [dependenciesGetCurrentActiveUser, hok, hinactive]

theorem C8_witness :
    securityGetCurrentActiveUser { emptyDB with users := [bobInactive] }
      (some ⟨some "bob", some "access", some "j9", some 99⟩) = .error 403 ∧
    dependenciesGetCurrentActiveUser { emptyDB with users := [bobInactive] }
      (some ⟨some "bob", some "access", some "j9", some 99⟩) = .error 400 :=
  ⟨(C8_inactive_rejection { emptyDB with users := [bobInactive] }
      (some ⟨some "bob", some "access", some "j9", some 99⟩) bobInactive rfl).1 rfl,
   (C8_inactive_rejection { emptyDB with users := [bobInactive] }
      (some ⟨some "bob", some "access", some "j9", some 99⟩) bobInactive rfl).2 rfl⟩

/-! ## Claim C9 — soft deletion -/

/-- What `soft_delete_user` does to each table, when the user exists. -/
theorem softDeleteUser_characterization (db : DB) (uid : Nat) (ok : Bool) (u : UserRec)
    (hu : getUser db uid = some u) :
    (softDeleteUser db uid ok).2 = some (anonUser uid u) ∧
    (softDeleteUser db uid ok).1.users
      = db.users.map (fun v => if v.id == uid then anonUser uid u else v) ∧
    (softDeleteUser db uid ok).1.audioFiles
      = db.audioFiles.map (fun f => if f.ownerId == uid then { f with isPublic := false } else f) ∧
    (softDeleteUser db uid ok).1.collections
      = db.collections.map (fun c => if c.ownerId == uid then { c with isPublic := false } else c) ∧
    (softDeleteUser db uid ok).1.collaborators = db.collaborators ∧
    (softDeleteUser db uid ok).1.revokedTokens = db.revokedTokens ∧
    (softDeleteUser db uid ok).1.resetTokens = db.resetTokens ∧
    (softDeleteUser db uid ok).1.retentionPolicies = db.retentionPolicies ∧
    (softDeleteUser db uid ok).1.deletionRequests = db.deletionRequests ∧
    (softDeleteUser db uid ok).1.auditLogs = db.auditLogs := by
  cases hpp : u.profilePictureUrl <;> cases ok <;>
    simp [softDeleteUser, hu, hpp, removeStorageObject]

/-- C9: soft deletion leaves the user row present with `is_active` false,
username `deleted_user_N`, email `deleted_N@deleted.account`, display
name and profile picture cleared, bio `"deleted"`, and flips every audio
file and collection owned by the user to private; a storage failure while
deleting the profile picture changes none of this. -/
theorem C9_soft_delete (db : DB) (uid : Nat) (u : UserRec) (ok : Bool)
    (hu : getUser db uid = some u) :
    ∃ anon : UserRec,
      (softDeleteUser db uid ok).2 = some anon ∧
      anon.isActive = false ∧
      anon.username = "deleted_user_" ++ toString uid ∧
      anon.email = "deleted_" ++ toString uid ++ "@deleted.account" ∧
      anon.displayName = none ∧
      anon.profilePictureUrl = none ∧
      anon.bio = some "deleted" ∧
      anon ∈ (softDeleteUser db uid ok).1.users ∧
      (∀ f ∈ (softDeleteUser db uid ok).1.audioFiles,
        f.ownerId = uid → f.isPublic = false) ∧
      (∀ c ∈ (softDeleteUser db uid ok).1.collections,
        c.ownerId = uid → c.isPublic = false) ∧
      (softDeleteUser db uid true).1.users = (softDeleteUser db uid false).1.users ∧
      (softDeleteUser db uid true).1.audioFiles
        = (softDeleteUser db uid false).1.audioFiles ∧
      (softDeleteUser db uid true).1.collections
        = (softDeleteUser db uid false).1.collections ∧
      (softDeleteUser db uid true).2 = (softDeleteUser db uid false).2 := by
  obtain ⟨h2, husers, hfiles, hcols, -, -, -, -, -, -⟩ :=
    softDeleteUser_characterization db uid ok u hu
  obtain ⟨t2, tusers, tfiles, tcols, -, -, -, -, -, -⟩ :=
    softDeleteUser_characterization db uid true u hu
  obtain ⟨f2, fusers, ffiles, fcols, -, -, -, -, -, -⟩ :=
    softDeleteUser_characterization db uid false u hu
  refine ⟨anonUser uid u, h2, rfl, rfl, rfl, rfl, rfl, rfl, ?_, ?_, ?_,
    by rw [tusers, fusers], by rw [tfiles, ffiles], by rw [tcols, fcols],
    by rw [t2, f2]⟩
  · rw [husers]
    have humem : u ∈ db.users := List.mem_of_find?_eq_some hu
    have hpred : (u.id == uid) = true := by
      simpa using List.find?_some hu
    have hmap := List.mem_map_of_mem
      (fun v => if v.id == uid then anonUser uid u else v) humem
    simpa [hpred] using hmap
  · intro f hf howner
    rw [hfiles] at hf
    obtain ⟨f0, hf0, heq⟩ := List.mem_map.mp hf
    by_cases hcond : (f0.ownerId == uid) = true
    · rw [if_pos hcond] at heq
      rw [← heq]
    · rw [if_neg (by simp [hcond])] at heq
      subst heq
      exact absurd (beq_iff_eq.mpr howner) (by simp [hcond])
  · intro c hc howner
    rw [hcols] at hc
    obtain ⟨c0, hc0, heq⟩ := List.mem_map.mp hc
    by_cases hcond : (c0.ownerId == uid) = true
    · rw [if_pos hcond] at heq
      rw [← heq]
    · rw [if_neg (by simp [hcond])] at heq
      subst heq
      exact absurd (beq_iff_eq.mpr howner) (by simp [hcond])

theorem C9_witness :
    ∃ anon : UserRec,
      (softDeleteUser dbPrivateCollection 1 false).2 = some anon ∧
      anon.isActive = false ∧
      anon.username = "deleted_user_" ++ toString 1 ∧
      anon.email = "deleted_" ++ toString 1 ++ "@deleted.account" ∧
      anon.displayName = none ∧
      anon.profilePictureUrl = none ∧
      anon.bio = some "deleted" ∧
      anon ∈ (softDeleteUser dbPrivateCollection 1 false).1.users ∧
      (∀ f ∈ (softDeleteUser dbPrivateCollection 1 false).1.audioFiles,
        f.ownerId = 1 → f.isPublic = false) ∧
      (∀ c ∈ (softDeleteUser dbPrivateCollection 1 false).1.collections,
        c.ownerId = 1 → c.isPublic = false) ∧
      (softDeleteUser dbPrivateCollection 1 true).1.users
        = (softDeleteUser dbPrivateCollection 1 false).1.users ∧
      (softDeleteUser dbPrivateCollection 1 true).1.audioFiles
        = (softDeleteUser dbPrivateCollection 1 false).1.audioFiles ∧
      (softDeleteUser dbPrivateCollection 1 true).1.collections
        = (softDeleteUser dbPrivateCollection 1 false).1.collections ∧
      (softDeleteUser dbPrivateCollection 1 true).2
        = (softDeleteUser dbPrivateCollection 1 false).2 :=
  C9_soft_delete dbPrivateCollection 1 aliceUser false (by decide)


/-! ### How the cleanup pipelines treat the audit log

`setAudit` commutation lemmas show that every cleanup step other than
`cleanupOldAuditLogs` computes the non-audit components without reading
the audit log, and projection lemmas show that the first five steps never
touch the reset tokens. -/

theorem setAudit_users (db : DB) (L : List AuditLogRec) :
    (setAudit db L).users = db.users := rfl

theorem setAudit_audioFiles (db : DB) (L : List AuditLogRec) :
    (setAudit db L).audioFiles = db.audioFiles := rfl

theorem setAudit_collections (db : DB) (L : List AuditLogRec) :
    (setAudit db L).collections = db.collections := rfl

theorem setAudit_collaborators (db : DB) (L : List AuditLogRec) :
    (setAudit db L).collaborators = db.collaborators := rfl

theorem setAudit_revokedTokens (db : DB) (L : List AuditLogRec) :
    (setAudit db L).revokedTokens = db.revokedTokens := rfl

theorem setAudit_auditLogs (db : DB) (L : List AuditLogRec) :
    (setAudit db L).auditLogs = L := rfl

theorem setAudit_resetTokens (db : DB) (L : List AuditLogRec) :
    (setAudit db L).resetTokens = db.resetTokens := rfl

theorem setAudit_retentionPolicies (db : DB) (L : List AuditLogRec) :
    (setAudit db L).retentionPolicies = db.retentionPolicies := rfl

theorem setAudit_deletionRequests (db : DB) (L : List AuditLogRec) :
    (setAudit db L).deletionRequests = db.deletionRequests := rfl

theorem setAudit_storage (db : DB) (L : List AuditLogRec) :
    (setAudit db L).storage = db.storage := rfl

theorem foldl_audit_commute {α : Type} (g : DB → α → DB)
    (hg : ∀ (acc : DB) (x : α) (L : List AuditLogRec),
      g (setAudit acc L) x = setAudit (g acc x) L)
    (l : List α) (acc : DB) (L : List AuditLogRec) :
    l.foldl g (setAudit acc L) = setAudit (l.foldl g acc) L := by
  induction l generalizing acc with
  | nil => rfl
  | cons x xs ih =>
      simp only [List.foldl_cons]
      rw [hg, ih]

theorem foldl_proj_const {α β γ : Type} (f : β → α → β) (proj : β → γ)
    (h : ∀ b a, proj (f b a) = proj b) (l : List α) (init : β) :
    proj (l.foldl f init) = proj init := by
  induction l generalizing init with
  | nil => rfl
  | cons x xs ih =>
      rw [List.foldl_cons, ih, h]

theorem removeStorageObject_audit (db : DB) (A : List AuditLogRec) (b n : String) :
    removeStorageObject (setAudit db A) b n = setAudit (removeStorageObject db b n) A := rfl

theorem removeStorageObject_resetTokens (db : DB) (b n : String) :
    (removeStorageObject db b n).resetTokens = db.resetTokens := rfl

theorem createAuditLog_audit (db : DB) (A : List AuditLogRec) (act : String)
    (uid : Option Nat) (det : Option String) (s : Bool) (now : Int) :
    createAuditLog (setAudit db A) act uid det s now
      = setAudit (createAuditLog db act uid det s now) (A ++ [⟨uid, act, det, s, now⟩]) := rfl

theorem createAuditLog_resetTokens (db : DB) (act : String) (uid : Option Nat)
    (det : Option String) (s : Bool) (now : Int) :
    (createAuditLog db act uid det s now).resetTokens = db.resetTokens := rfl

theorem completeDeletionRequest_audit (db : DB) (A : List AuditLogRec) (rid : Nat) :
    completeDeletionRequest (setAudit db A) rid
      = setAudit (completeDeletionRequest db rid) A := rfl

theorem completeDeletionRequest_resetTokens (db : DB) (rid : Nat) :
    (completeDeletionRequest db rid).resetTokens = db.resetTokens := rfl

theorem audioFold_audit (l : List AudioFileRec) (acc : DB) (L : List AuditLogRec) :
    l.foldl (fun a f => removeStorageObject a "audio-files" f.storedFilename) (setAudit acc L)
      = setAudit (l.foldl (fun a f => removeStorageObject a "audio-files" f.storedFilename) acc) L :=
  foldl_audit_commute _ (fun _ _ _ => rfl) l acc L

theorem coverFold_audit (l : List CollectionRec) (acc : DB) (L : List AuditLogRec) :
    l.foldl (fun a c => match c.coverArtUrl with
        | some url => removeStorageObject a "cover-art" (lastPathComponent url)
        | none => a) (setAudit acc L)
      = setAudit (l.foldl (fun a c => match c.coverArtUrl with
          | some url => removeStorageObject a "cover-art" (lastPathComponent url)
          | none => a) acc) L := by
  apply foldl_audit_commute
  intro acc2 c L2
  cases c.coverArtUrl <;> rfl

theorem ppFold_audit (l : List StorageObject) (acc : DB) (L : List AuditLogRec) :
    l.foldl (fun a o => removeStorageObject a "profile-pictures" o.name) (setAudit acc L)
      = setAudit (l.foldl (fun a o => removeStorageObject a "profile-pictures" o.name) acc) L :=
  foldl_audit_commute _ (fun _ _ _ => rfl) l acc L

theorem cleanupExpiredTokens_audit (db : DB) (A : List AuditLogRec) (now : Int) :
    (cleanupExpiredTokens (setAudit db A) now).1
      = setAudit (cleanupExpiredTokens db now).1 A := rfl

theorem cleanupExpiredTokens_resetTokens (db : DB) (now : Int) :
    (cleanupExpiredTokens db now).1.resetTokens = db.resetTokens := rfl

theorem cleanupOldAuditLogs_audit (db : DB) (A : List AuditLogRec) (now r : Int) :
    (cleanupOldAuditLogs (setAudit db A) now r).1
      = setAudit (cleanupOldAuditLogs db now r).1
          (A.filter (fun a => !decide (a.timestamp < now - r * 86400))) := rfl

theorem cleanupOldAuditLogs_resetTokens (db : DB) (now r : Int) :
    (cleanupOldAuditLogs db now r).1.resetTokens = db.resetTokens := rfl

theorem cleanupUnusedProfilePictures_audit (db : DB) (A : List AuditLogRec) :
    (cleanupUnusedProfilePictures (setAudit db A)).1
      = setAudit (cleanupUnusedProfilePictures db).1 A := by
  unfold cleanupUnusedProfilePictures
  simp only [setAudit_users, setAudit_storage]
  exact ppFold_audit _ db A

theorem cleanupUnusedProfilePictures_resetTokens (db : DB) :
    (cleanupUnusedProfilePictures db).1.resetTokens = db.resetTokens := by
  unfold cleanupUnusedProfilePictures
  exact foldl_proj_const
    (fun (acc : DB) (o : StorageObject) => removeStorageObject acc "profile-pictures" o.name)
    DB.resetTokens (fun _ _ => rfl) _ db

theorem createRetentionPolicy_audit (db : DB) (A : List AuditLogRec) (t : String)
    (d : Int) (s : String) :
    createRetentionPolicy (setAudit db A) t d s
      = setAudit (createRetentionPolicy db t d s) A := by
  by_cases hc : db.retentionPolicies.any (fun p => p.dataType == t) = true
  · simp [createRetentionPolicy, setAudit, hc]
  · simp only [Bool.not_eq_true] at hc
    simp [createRetentionPolicy, setAudit, hc]

theorem createRetentionPolicy_resetTokens (db : DB) (t : String) (d : Int) (s : String) :
    (createRetentionPolicy db t d s).resetTokens = db.resetTokens := by
  unfold createRetentionPolicy
  split <;> rfl

theorem initializeDefaultRetentionPolicies_audit (db : DB) (A : List AuditLogRec) :
    initializeDefaultRetentionPolicies (setAudit db A)
      = setAudit (initializeDefaultRetentionPolicies db) A := by
  unfold initializeDefaultRetentionPolicies defaultRetentionPolicies
  simp only [List.foldl_cons, List.foldl_nil, createRetentionPolicy_audit]

theorem initializeDefaultRetentionPolicies_resetTokens (db : DB) :
    (initializeDefaultRetentionPolicies db).resetTokens = db.resetTokens := by
  unfold initializeDefaultRetentionPolicies
  exact foldl_proj_const
    (fun (acc : DB) (p : String × Int × String) => createRetentionPolicy acc p.1 p.2.1 p.2.2)
    DB.resetTokens (fun b p => createRetentionPolicy_resetTokens b p.1 p.2.1 p.2.2) _ db

theorem softDeleteUser_audit (db : DB) (A : List AuditLogRec) (uid : Nat) (ok : Bool) :
    softDeleteUser (setAudit db A) uid ok
      = (setAudit (softDeleteUser db uid ok).1 A, (softDeleteUser db uid ok).2) := by
  have hgu : getUser (setAudit db A) uid = getUser db uid := rfl
  cases hu : getUser db uid with
  | none =>
      simp only [softDeleteUser, hgu, hu]
  | some u =>
      cases hpp : u.profilePictureUrl <;> cases ok <;>
        (simp only [softDeleteUser, hgu, hu, hpp, removeStorageObject_audit, setAudit_users,
          setAudit_audioFiles, setAudit_collections, setAudit_auditLogs, eq_self_iff_true,
          if_true, Bool.false_eq_true, if_false] <;> rfl)

theorem softDeleteUser_resetTokens (db : DB) (uid : Nat) (ok : Bool) :
    (softDeleteUser db uid ok).1.resetTokens = db.resetTokens := by
  cases hu : getUser db uid with
  | none => simp [softDeleteUser, hu]
  | some u =>
      cases hpp : u.profilePictureUrl <;> cases ok <;>
        simp [softDeleteUser, hu, hpp, removeStorageObject]

theorem hardDeleteUser_audit (db : DB) (A : List AuditLogRec) (uid : Nat) :
    ∃ A2, hardDeleteUser (setAudit db A) uid = setAudit (hardDeleteUser db uid) A2 := by
  have hgu : getUser (setAudit db A) uid = getUser db uid := rfl
  cases hu : getUser db uid with
  | none =>
      refine ⟨A, ?_⟩
      simp only [hardDeleteUser, hgu, hu]
  | some u =>
      refine ⟨A.map (fun a => if a.userId == some uid then
        { a with userId := none, details := some "User deleted - GDPR" } else a), ?_⟩
      cases hpp : u.profilePictureUrl with
      | none =>
          simp only [hardDeleteUser, hgu, hu, hpp, setAudit_users, setAudit_audioFiles,
            setAudit_collections, setAudit_collaborators, setAudit_revokedTokens,
            setAudit_auditLogs, setAudit_storage, audioFold_audit, coverFold_audit]
          rfl
      | some url =>
          simp only [hardDeleteUser, hgu, hu, hpp, removeStorageObject_audit,
            setAudit_users, setAudit_audioFiles, setAudit_collections, setAudit_collaborators,
            setAudit_revokedTokens, setAudit_auditLogs, setAudit_storage,
            audioFold_audit, coverFold_audit]
          rfl

theorem hardDeleteUser_resetTokens (db : DB) (uid : Nat) :
    (hardDeleteUser db uid).resetTokens = db.resetTokens := by
  have hf1 : ∀ (l : List AudioFileRec) (acc : DB),
      (l.foldl (fun a f => removeStorageObject a "audio-files" f.storedFilename) acc).resetTokens
        = acc.resetTokens :=
    fun l acc => foldl_proj_const
      (fun (a : DB) (f : AudioFileRec) => removeStorageObject a "audio-files" f.storedFilename)
      DB.resetTokens (fun _ _ => rfl) l acc
  have hf2 : ∀ (l : List CollectionRec) (acc : DB),
      (l.foldl (fun a c => match c.coverArtUrl with
          | some url => removeStorageObject a "cover-art" (lastPathComponent url)
          | none => a) acc).resetTokens = acc.resetTokens :=
    fun l acc => foldl_proj_const
      (fun (a : DB) (c : CollectionRec) => match c.coverArtUrl with
        | some url => removeStorageObject a "cover-art" (lastPathComponent url)
        | none => a)
      DB.resetTokens
      (fun b c => by cases hc : c.coverArtUrl <;> simp [hc, removeStorageObject_resetTokens])
      l acc
  cases hu : getUser db uid with
  | none => simp [hardDeleteUser, hu]
  | some u =>
      cases hpp : u.profilePictureUrl <;>
        simp [hardDeleteUser, hu, hpp, hf1, hf2, removeStorageObject_resetTokens]

theorem processOneDeletion_audit (db : DB) (A : List AuditLogRec) (now : Int)
    (r : DeletionRequestRec) :
    ∃ A2, processOneDeletion (setAudit db A) now r
      = (setAudit (processOneDeletion db now r).1 A2, (processOneDeletion db now r).2) := by
  have hgu : getUser (setAudit db A) r.userId = getUser db r.userId := rfl
  cases hu : getUser db r.userId with
  | none =>
      refine ⟨A, ?_⟩
      simp only [processOneDeletion, hgu, hu, completeDeletionRequest_audit]
  | some u =>
      by_cases hsoft : (r.deletionType == "soft") = true
      · refine ⟨A ++ [⟨some u.id, "user." ++ r.deletionType ++ "_delete_automated",
          some ("Automated " ++ r.deletionType ++ " deletion after grace period"), true, now⟩], ?_⟩
        simp only [processOneDeletion, hgu, hu, if_pos hsoft]
        rw [createAuditLog_audit, softDeleteUser_audit, completeDeletionRequest_audit]
      · by_cases hhard : (r.deletionType == "hard") = true
        · obtain ⟨A2, h2⟩ := hardDeleteUser_audit
            (createAuditLog db ("user." ++ r.deletionType ++ "_delete_automated") (some u.id)
              (some ("Automated " ++ r.deletionType ++ " deletion after grace period")) true now)
            (A ++ [⟨some u.id, "user." ++ r.deletionType ++ "_delete_automated",
              some ("Automated " ++ r.deletionType ++ " deletion after grace period"), true, now⟩])
            r.userId
          refine ⟨A2, ?_⟩
          simp only [processOneDeletion, hgu, hu, if_neg hsoft, if_pos hhard]
          rw [createAuditLog_audit, h2, completeDeletionRequest_audit]
        · refine ⟨A ++ [⟨some u.id, "user." ++ r.deletionType ++ "_delete_automated",
            some ("Automated " ++ r.deletionType ++ " deletion after grace period"), true, now⟩], ?_⟩
          simp only [processOneDeletion, hgu, hu, if_neg hsoft, if_neg hhard]
          rw [createAuditLog_audit, completeDeletionRequest_audit]

theorem processOneDeletion_resetTokens (db : DB) (now : Int) (r : DeletionRequestRec) :
    (processOneDeletion db now r).1.resetTokens = db.resetTokens := by
  cases hu : getUser db r.userId with
  | none =>
      simp only [processOneDeletion, hu, completeDeletionRequest_resetTokens]
  | some u =>
      by_cases hsoft : (r.deletionType == "soft") = true
      · simp only [processOneDeletion, hu, if_pos hsoft, completeDeletionRequest_resetTokens,
          softDeleteUser_resetTokens, createAuditLog_resetTokens]
      · by_cases hhard : (r.deletionType == "hard") = true
        · simp only [processOneDeletion, hu, if_neg hsoft, if_pos hhard,
            completeDeletionRequest_resetTokens, hardDeleteUser_resetTokens,
            createAuditLog_resetTokens]
        · simp only [processOneDeletion, hu, if_neg hsoft, if_neg hhard,
            completeDeletionRequest_resetTokens, createAuditLog_resetTokens]

theorem processFold_audit (now : Int) (due : List DeletionRequestRec) :
    ∀ (db : DB) (A : List AuditLogRec) (k : Nat),
    ∃ A2, due.foldl (processPendingStep now) (setAudit db A, k)
      = (setAudit (due.foldl (processPendingStep now) (db, k)).1 A2,
         (due.foldl (processPendingStep now) (db, k)).2) := by
  induction due with
  | nil =>
      intro db A k
      exact ⟨A, rfl⟩
  | cons r rs ih =>
      intro db A k
      obtain ⟨A1, h1⟩ := processOneDeletion_audit db A now r
      have hstep : processPendingStep now (setAudit db A, k) r
          = (setAudit (processOneDeletion db now r).1 A1,
             (processPendingStep now ((db : DB), k) r).2) := by
        simp only [processPendingStep, h1]
      obtain ⟨A2, h2⟩ := ih (processOneDeletion db now r).1 A1
        ((processPendingStep now ((db : DB), k) r).2)
      refine ⟨A2, ?_⟩
      simp only [List.foldl_cons]
      rw [hstep, h2]
      rfl

theorem processPendingDeletions_audit (now : Int) (db : DB) (A : List AuditLogRec) :
    ∃ A2, (processPendingDeletions (setAudit db A) now).1
      = setAudit (processPendingDeletions db now).1 A2 := by
  have hdue : getPendingDeletions (setAudit db A) now = getPendingDeletions db now := rfl
  obtain ⟨A2, h⟩ := processFold_audit now (getPendingDeletions db now) db A 0
  refine ⟨A2, ?_⟩
  show ((getPendingDeletions (setAudit db A) now).foldl (processPendingStep now)
    (setAudit db A, 0)).1 = _
  rw [hdue, h]
  rfl

theorem processPendingDeletions_resetTokens (db : DB) (now : Int) :
    (processPendingDeletions db now).1.resetTokens = db.resetTokens := by
  have h := foldl_proj_const (processPendingStep now)
    (fun acc : DB × Nat => acc.1.resetTokens)
    (fun b a => by simp only [processPendingStep, processOneDeletion_resetTokens])
    (getPendingDeletions db now) (db, 0)
  exact h

/-- C10, counterexample: on a state whose only password-reset token expired
five seconds before `now = 0`, the weekly job (`run_all_cleanup_tasks`)
deletes the token (its step 6), while the admin "run all cleanup tasks"
endpoint — which only invokes the first five cleanup functions — keeps it,
so the endpoint does not perform the same cleanup sequence as the weekly
job and the resulting states differ beyond the audit log. -/
theorem C10_counterexample :
    (runAllCleanupTasks dbExpiredReset 0).resetTokens = [] ∧
    (runAllCleanupTasksEndpoint dbExpiredReset 3 "root" 0).1.resetTokens
      = [⟨1, "t", -5, true, none⟩] ∧
    ¬ NonAuditEq (runAllCleanupTasksEndpoint dbExpiredReset 3 "root" 0).1
      (runAllCleanupTasks dbExpiredReset 0) := by
  refine ⟨rfl, rfl, ?_⟩
  decide

set_option maxHeartbeats 1600000 in
/-- C10 (amended): the admin "run all cleanup tasks" endpoint first writes
its own audit entry and then performs cleanup steps 1–5 of the weekly
sequence (expired revoked tokens, due deletion requests, audit logs older
than 3,650 days, unreferenced profile pictures, default retention
policies) but not step 6 (expired password-reset tokens).  Hence on any
state holding no password-reset token that is already expired at `now`,
the endpoint produces the same state as the scheduled weekly cleanup on
every component other than the audit log. -/
theorem C10_manual_cleanup_vs_weekly (db : DB) (adminId : Nat) (adminName : String)
    (now : Int) (hres : ∀ t ∈ db.resetTokens, ¬ t.expiresAt < now) :
    NonAuditEq (runAllCleanupTasksEndpoint db adminId adminName now).1
      (runAllCleanupTasks db now) := by
  have hA : createAuditLog db "admin.run_all_cleanup_tasks" (some adminId)
      (some ("Admin " ++ adminName ++ " triggered all cleanup tasks")) true now
      = setAudit db (db.auditLogs ++ [⟨some adminId, "admin.run_all_cleanup_tasks",
          some ("Admin " ++ adminName ++ " triggered all cleanup tasks"), true, now⟩]) := rfl
  have hend : (runAllCleanupTasksEndpoint db adminId adminName now).1
      = initializeDefaultRetentionPolicies (cleanupUnusedProfilePictures (cleanupOldAuditLogs
          (processPendingDeletions (cleanupExpiredTokens (createAuditLog db
            "admin.run_all_cleanup_tasks" (some adminId)
            (some ("Admin " ++ adminName ++ " triggered all cleanup tasks")) true now)
            now).1 now).1 now 3650).1).1 := rfl
  obtain ⟨L2, e2⟩ := processPendingDeletions_audit now (cleanupExpiredTokens db now).1
    (db.auditLogs ++ [⟨some adminId, "admin.run_all_cleanup_tasks",
      some ("Admin " ++ adminName ++ " triggered all cleanup tasks"), true, now⟩])
  have hpush : (runAllCleanupTasksEndpoint db adminId adminName now).1
      = setAudit (initializeDefaultRetentionPolicies (cleanupUnusedProfilePictures
          (cleanupOldAuditLogs (processPendingDeletions (cleanupExpiredTokens db now).1
            now).1 now 3650).1).1)
          (L2.filter (fun a => !decide (a.timestamp < now - 3650 * 86400))) := by
    rw [hend, hA, cleanupExpiredTokens_audit, e2, cleanupOldAuditLogs_audit,
      cleanupUnusedProfilePictures_audit, initializeDefaultRetentionPolicies_audit]
  have hrt : (initializeDefaultRetentionPolicies (cleanupUnusedProfilePictures
      (cleanupOldAuditLogs (processPendingDeletions (cleanupExpiredTokens db now).1
        now).1 now 3650).1).1).resetTokens = db.resetTokens := by
    rw [initializeDefaultRetentionPolicies_resetTokens, cleanupUnusedProfilePictures_resetTokens,
      cleanupOldAuditLogs_resetTokens, processPendingDeletions_resetTokens,
      cleanupExpiredTokens_resetTokens]
  have hfilter : db.resetTokens.filter (fun t => !decide (t.expiresAt < now)) = db.resetTokens := by
    apply List.filter_eq_self.mpr
    intro a ha
    simpa using hres a ha
  have hweek : runAllCleanupTasks db now
      = (cleanupExpiredResetTokens (initializeDefaultRetentionPolicies
          (cleanupUnusedProfilePictures (cleanupOldAuditLogs (processPendingDeletions
            (cleanupExpiredTokens db now).1 now).1 now 3650).1).1) now).1 := rfl
  rw [hpush, hweek]
  set D := initializeDefaultRetentionPolicies (cleanupUnusedProfilePictures
    (cleanupOldAuditLogs (processPendingDeletions (cleanupExpiredTokens db now).1
      now).1 now 3650).1).1 with hD
  have hf2 : D.resetTokens.filter (fun t => !decide (t.expiresAt < now)) = D.resetTokens := by
    rw [hrt]
    exact hfilter
  unfold NonAuditEq
  refine ⟨rfl, rfl, rfl, rfl, rfl, ?_, rfl, rfl, rfl⟩
  simp only [setAudit_resetTokens]
  have hcr : (cleanupExpiredResetTokens D now).1.resetTokens
      = D.resetTokens.filter (fun t => !decide (t.expiresAt < now)) := rfl
  rw [hcr, hf2]

/-- C10 witness: on the empty store (no reset tokens at all, so none
expired), the endpoint and the weekly job agree on every non-audit
component. -/
theorem C10_witness :
    NonAuditEq (runAllCleanupTasksEndpoint emptyDB 3 "root" 0).1
      (runAllCleanupTasks emptyDB 0) :=
  C10_manual_cleanup_vs_weekly emptyDB 3 "root" 0
    (fun t ht => absurd ht (by simp [emptyDB]))

end Sono
